import Mathlib

/-!
Verification of the "WhoDat?" social guessing-game server (`server.js` and the
raw-WebSocket variant of the same server).  The development shallowly embeds

* the per-lobby game state machine: lobby data, timers, phase transitions and
  the message handler switch, and
* the wire-level WebSocket codec: the opening-handshake accept value
  (SHA-1 + base64) and text-frame encoding/decoding,

and proves the specified properties about them.  JavaScript `Map`s are
embedded as insertion-ordered association lists (`set` overwrites in place,
iteration follows insertion order), `Math.random`-driven choices and
`crypto.randomBytes` ids are threaded as explicit oracle functions with call
counters, and `setTimeout` handles are modelled as a list of live timer ids so
that cancel/replace discipline is observable.  A JavaScript crash (a property
access on `undefined`) is modelled as `Option.none`.
-/

namespace WhoDat

set_option maxRecDepth 65536

/-- Insertion-ordered association map from strings to strings, the embedding
of a JavaScript `Map` with string keys as used by the server. -/
abbrev AMap := List (String × String)

/-- Embedding of `Map.get`: first (and, for maps built by `aset`, only)
binding of the key. -/
def aget (m : AMap) (k : String) : Option String :=
  match m with
  | [] => none
  | (k', v) :: rest => if k' == k then some v else aget rest k

/-- Embedding of `Map.has`. -/
def ahas (m : AMap) (k : String) : Bool :=
  (aget m k).isSome

/-- Embedding of `Map.set`: overwrite in place when the key is present
(keeping its insertion position), otherwise append at the end. -/
def aset (m : AMap) (k v : String) : AMap :=
  match m with
  | [] => [(k, v)]
  | (k', v') :: rest => if k' == k then (k, v) :: rest else (k', v') :: aset rest k v

/-- One Fisher-Yates swap from `shuffleArray`: the simultaneous assignment
`[a[i], a[j]] = [a[j], a[i]]`.  Out-of-range indices (unreachable for the
in-range random draws of the source) leave the list unchanged. -/
def swapIdx {α : Type} (l : List α) (i j : Nat) : List α :=
  match l[i]?, l[j]? with
  | some vi, some vj => (l.set i vj).set j vi
  | _, _ => l

/-- The loop of `shuffleArray`: `for (let i = a.length - 1; i > 0; i--)`
swapping index `i` with the randomly drawn index `rand i ≤ i`. -/
def fyLoop {α : Type} (rand : Nat → Nat) (l : List α) : Nat → List α
  | 0 => l
  | i + 1 => fyLoop rand (swapIdx l (i + 1) (rand (i + 1))) i

/-- Embedding of `shuffleArray`, parameterised by the oracle `rand i`,
the value of `Math.floor(Math.random() * (i + 1))` at loop index `i`. -/
def shuffleArray {α : Type} (rand : Nat → Nat) (arr : List α) : List α :=
  fyLoop rand arr (arr.length - 1)
/-- The lobby phases of the state machine. -/
inductive Phase where
  | lobby | question | answering | reveal | guessing | voting | results | gameover
deriving DecidableEq, Repr

/-- A player record, as created by `create_lobby` / `join_lobby`. -/
structure Player where
  id : String
  name : String
  score : Nat
  connected : Bool
deriving DecidableEq, Repr

/-- An entry of `lobby.shuffledAnswers`: a freshly generated opaque id, the
answer text and the author's player id. -/
structure ShAnswer where
  id : String
  text : String
  playerId : String
deriving DecidableEq, Repr

/-- A pending `setTimeout` handle: its identity, the phase whose entry
scheduled it and the requested duration in seconds.  The wall-clock
`timerEnd` timestamp of the source is outside the model. -/
structure TimerHandle where
  tid : Nat
  owner : Phase
  seconds : Nat
deriving DecidableEq, Repr

/-- One entry of the `results` array built by `scoreGuesses`. -/
structure GuessResult where
  answerId : String
  answerText : String
  actualPlayerId : String
  actualPlayerName : String
  guessedPlayer : Option (String × String)
  correct : Bool
deriving DecidableEq, Repr

/-- The per-lobby state object of `createLobby`. -/
structure Lobby where
  code : String
  hostId : String
  players : List Player
  phase : Phase
  currentGuesserIdx : Nat
  guesserOrder : List String
  currentQuestion : String
  answers : AMap
  revealIndex : Nat
  guesses : AMap
  timer : Option TimerHandle
  votesBest : AMap
  votesFunniest : AMap
  shuffledAnswers : List ShAnswer
  guessResults : Option (Nat × Nat × List GuessResult)
deriving DecidableEq, Repr

/-- A lobby together with its runtime environment: the live `setTimeout`
handles scheduled for it, a fresh-handle counter, and the oracles for
`Math.random` (per shuffle call, per loop index) and `generateId` (per
call), each with its call counter. -/
structure World where
  lobby : Lobby
  live : List Nat
  nextTid : Nat
  rnd : Nat → Nat → Nat
  rndCtr : Nat
  ids : Nat → String
  idCtr : Nat

/-- Messages the server sends to a single client that the claims observe;
broadcasts carry no extra lobby state and are not tracked. -/
inductive Event where
  | errorMsg (message : String)
deriving DecidableEq, Repr

/-- `ROUNDS`: each player guesses this many times. -/
def ROUNDS : Nat := 3

/-- `TIMER_QUESTION`: seconds to write a question. -/
def TIMER_QUESTION : Nat := 60

/-- `TIMER_ANSWER`: seconds to write an answer. -/
def TIMER_ANSWER : Nat := 60

/-- `TIMER_PER_PLAYER`: seconds per player for guessing. -/
def TIMER_PER_PLAYER : Nat := 30

/-- Embedding of `createLobby` plus the enclosing runtime: the freshly
created lobby has no pending timer and the oracle counters start at zero. -/
def initWorld (code hostId hostName : String)
    (rnd : Nat → Nat → Nat) (ids : Nat → String) : World where
  lobby :=
    { code := code
      hostId := hostId
      players := [{ id := hostId, name := hostName, score := 0, connected := true }]
      phase := Phase.lobby
      currentGuesserIdx := 0
      guesserOrder := []
      currentQuestion := ""
      answers := []
      revealIndex := 0
      guesses := []
      timer := none
      votesBest := []
      votesFunniest := []
      shuffledAnswers := []
      guessResults := none }
  live := []
  nextTid := 0
  rnd := rnd
  rndCtr := 0
  ids := ids
  idCtr := 0

/-- Embedding of `getGuesser`: `lobby.players.find(p => p.id === id)` where
`id = lobby.guesserOrder[lobby.currentGuesserIdx]`; an out-of-range index
gives `undefined`, which matches no player. -/
def getGuesser (l : Lobby) : Option Player :=
  l.guesserOrder[l.currentGuesserIdx]?.bind fun gid =>
    l.players.find? fun p => p.id == gid

/-- Embedding of `getAnswerers`: everyone but the current guesser; with an
out-of-range rotation index the comparison against `undefined` keeps all. -/
def getAnswerers (l : Lobby) : List Player :=
  match l.guesserOrder[l.currentGuesserIdx]? with
  | some gid => l.players.filter fun p => p.id != gid
  | none => l.players

/-- Embedding of `clearTimer`: cancel the pending handle, if any. -/
def clearTimer (w : World) : World :=
  match w.lobby.timer with
  | some t =>
      { w with
        lobby := { w.lobby with timer := none }
        live := w.live.erase t.tid }
  | none => w

/-- Embedding of `startTimer`: always clears the previous handle first, then
schedules a fresh one (owned by the phase being entered). -/
def startTimer (w : World) (owner : Phase) (seconds : Nat) : World :=
  let w := clearTimer w
  { w with
    lobby := { w.lobby with timer := some ⟨w.nextTid, owner, seconds⟩ }
    live := w.live ++ [w.nextTid]
    nextTid := w.nextTid + 1 }

/-- The turn-state reset block at the top of `startQuestionPhase`. -/
def resetTurn (l : Lobby) : Lobby :=
  { l with
    phase := Phase.question
    currentQuestion := ""
    answers := ([] : AMap)
    guesses := ([] : AMap)
    votesBest := ([] : AMap)
    votesFunniest := ([] : AMap)
    shuffledAnswers := ([] : List ShAnswer)
    revealIndex := 0
    guessResults := none }

/-- Set the lobby phase (the `lobby.phase = ...` assignment opening most
phase-entry functions). -/
def setPhase (l : Lobby) (ph : Phase) : Lobby :=
  { l with phase := ph }

/-- Embedding of `startQuestionPhase`: reset all turn state, then broadcast
(which reads `getGuesser(lobby).id` and crashes when the guesser is
`undefined`) and start the question timer. -/
def startQuestionPhase (w : World) : Option World :=
  match getGuesser (resetTurn w.lobby) with
  | none => none
  | some _ =>
      some (startTimer { w with lobby := resetTurn w.lobby } Phase.question TIMER_QUESTION)

/-- Embedding of `startAnswerPhase`: enter `answering`, broadcast (reading
the guesser) and start the answer timer. -/
def startAnswerPhase (w : World) : Option World :=
  match getGuesser (setPhase w.lobby Phase.answering) with
  | none => none
  | some _ =>
      some (startTimer { w with lobby := setPhase w.lobby Phase.answering }
        Phase.answering TIMER_ANSWER)

/-- The `entries` loop of `startRevealPhase`: one `generateId()` per stored
answer, in the insertion order of `lobby.answers`.  Returns the entry list
and the advanced id-oracle counter. -/
def mkEntries (ids : Nat → String) (ctr : Nat) : AMap → List ShAnswer × Nat
  | [] => ([], ctr)
  | (pid, text) :: rest =>
      let tail := mkEntries ids (ctr + 1) rest
      (⟨ids ctr, text, pid⟩ :: tail.1, tail.2)

/-- The lobby after the id-assignment and shuffle block of
`startRevealPhase`. -/
def revealLobby (w : World) : Lobby :=
  { w.lobby with
    shuffledAnswers := shuffleArray (w.rnd w.rndCtr) (mkEntries w.ids w.idCtr w.lobby.answers).1
    revealIndex := 0
    phase := Phase.reveal }

/-- Embedding of `startRevealPhase`: give every answer a fresh opaque id,
shuffle the presentation list, reset the reveal index and enter `reveal`
(no timer in this phase; `sendRevealAnswer` only broadcasts). -/
def startRevealPhase (w : World) : Option World :=
  match getGuesser (revealLobby w) with
  | none => none
  | some _ =>
      some { w with
        lobby := revealLobby w
        idCtr := (mkEntries w.ids w.idCtr w.lobby.answers).2
        rndCtr := w.rndCtr + 1 }

/-- Embedding of `startGuessingPhase`: enter `guessing` and start a timer of
`TIMER_PER_PLAYER` seconds per answerer. -/
def startGuessingPhase (w : World) : Option World :=
  match getGuesser (setPhase w.lobby Phase.guessing) with
  | none => none
  | some _ =>
      some (startTimer { w with lobby := setPhase w.lobby Phase.guessing }
        Phase.guessing
        (TIMER_PER_PLAYER * (getAnswerers (setPhase w.lobby Phase.guessing)).length))

/-- Embedding of `startVotingPhase`: enter `voting` and start the fixed
20-second voting timer. -/
def startVotingPhase (w : World) : Option World :=
  match getGuesser (setPhase w.lobby Phase.voting) with
  | none => none
  | some _ =>
      some (startTimer { w with lobby := setPhase w.lobby Phase.voting } Phase.voting 20)

/-- Increment the score of the first player with the given id (JavaScript
mutates the object returned by `players.find`). -/
def bumpScore (ps : List Player) (pid : String) (d : Nat) : List Player :=
  match ps with
  | [] => []
  | p :: rest =>
      if p.id == pid then { p with score := p.score + d } :: rest
      else p :: bumpScore rest pid d

/-- The scoring loop of `scoreGuesses`: count correct guesses and build the
`results` array; accessing `actualPlayer.id` on a missing author crashes. -/
def scoreLoop (players : List Player) (guesses : AMap) :
    List ShAnswer → Option (Nat × List GuessResult)
  | [] => some (0, [])
  | a :: rest => do
      let actual ← players.find? fun p => p.id == a.playerId
      let gid := aget guesses a.id
      let guessed := gid.bind fun g => players.find? fun p => p.id == g
      let isCorrect := gid == some a.playerId
      let tail ← scoreLoop players guesses rest
      some ((if isCorrect then tail.1 + 1 else tail.1),
        ⟨a.id, a.text, actual.id, actual.name,
          guessed.map (fun p => (p.id, p.name)), isCorrect⟩ :: tail.2)

/-- Embedding of `scoreGuesses`: award the guesser one point per answer
whose recorded guess equals its true author, store `guessResults`, and move
to the voting phase. -/
def scoreGuesses (w : World) : Option World := do
  let guesser ← getGuesser w.lobby
  let scored ← scoreLoop w.lobby.players w.lobby.guesses w.lobby.shuffledAnswers
  startVotingPhase { w with lobby := { w.lobby with
    players := bumpScore w.lobby.players guesser.id scored.1
    guessResults := some (scored.1, w.lobby.shuffledAnswers.length, scored.2) } }

/-- One `Map.set(answerId, count + 1)` step of the tally loops: bump the
count of the key in place, or append it with count 1. -/
def bumpCount (m : List (String × Nat)) (k : String) : List (String × Nat) :=
  match m with
  | [] => [(k, 1)]
  | (k', c) :: rest =>
      if k' == k then (k', c + 1) :: rest else (k', c) :: bumpCount rest k

/-- The counting loops of `tallyVotes`: iterate the vote map in insertion
order, counting votes per answer id. -/
def countVotes (votes : AMap) : List (String × Nat) :=
  votes.foldl (fun m kv => bumpCount m kv.2) []

/-- The winner-selection loops of `tallyVotes`: starting from
`(null, 0)`, take an entry only when its count is strictly greater than the
running maximum. -/
def pickWinner (counts : List (String × Nat)) : Option String × Nat :=
  counts.foldl (fun acc e => if e.2 > acc.2 then (some e.1, e.2) else acc) (none, 0)

/-- The bonus-award block of `tallyVotes`: resolve the winning answer id to
an answer, then to its author, and add one point when both exist. -/
def awardBonus (l : Lobby) (winner : Option String) : Lobby :=
  match winner with
  | none => l
  | some aid =>
      match l.shuffledAnswers.find? (fun a => a.id == aid) with
      | none => l
      | some a =>
          match l.players.find? (fun p => p.id == a.playerId) with
          | none => l
          | some _ => { l with players := bumpScore l.players a.playerId 1 }

/-- Embedding of `showResults`: enter the `results` phase (the rest of the
source function only broadcasts). -/
def showResults (w : World) : World :=
  { w with lobby := { w.lobby with phase := Phase.results } }

/-- Embedding of `tallyVotes`: count both categories, pick each winner (both
from the vote maps as they stand on entry), award the bonus points and show
the results. -/
def tallyVotes (w : World) : World :=
  showResults
    { w with
      lobby :=
        awardBonus
          (awardBonus w.lobby (pickWinner (countVotes w.lobby.votesBest)).1)
          (pickWinner (countVotes w.lobby.votesFunniest)).1 }

/-- The rotation-building loop of `startGame`: one independently shuffled
copy of the player-id list per round, concatenated in round order; returns
the order and the advanced shuffle-oracle counter. -/
def buildOrder (rnd : Nat → Nat → Nat) (ctr : Nat) (pids : List String) :
    Nat → List String × Nat
  | 0 => ([], ctr)
  | r + 1 =>
      let s := shuffleArray (rnd ctr) pids
      let rest := buildOrder rnd (ctr + 1) pids r
      (s ++ rest.1, rest.2)

/-- Embedding of `startGame`: build the guesser rotation, reset the rotation
index and all scores, and begin the first question phase. -/
def startGame (w : World) : Option World :=
  startQuestionPhase { w with
    lobby := { w.lobby with
      guesserOrder := (buildOrder w.rnd w.rndCtr (w.lobby.players.map Player.id) ROUNDS).1
      currentGuesserIdx := 0
      players := w.lobby.players.map fun p => { p with score := 0 } }
    rndCtr := (buildOrder w.rnd w.rndCtr (w.lobby.players.map Player.id) ROUNDS).2 }

/-- Embedding of `nextTurn`: advance the rotation index; past the end of the
rotation the game is over, otherwise the next question phase begins. -/
def nextTurn (w : World) : Option World :=
  if w.lobby.currentGuesserIdx + 1 ≥ w.lobby.guesserOrder.length then
    some { w with lobby := { w.lobby with
      currentGuesserIdx := w.lobby.currentGuesserIdx + 1
      phase := Phase.gameover } }
  else
    startQuestionPhase { w with lobby := { w.lobby with
      currentGuesserIdx := w.lobby.currentGuesserIdx + 1 } }

/-- The blank-filling loop of the answer-phase timer callback: every
answerer without a stored answer is assigned the placeholder text. -/
def fillBlanks (l : Lobby) : Lobby :=
  { l with
    answers := (getAnswerers l).foldl
      (fun m p => if ahas m p.id then m else aset m p.id "...") l.answers }

/-- The self-clearing prologue of every timer callback: `lobby.timer = null`
before the callback body runs (the handle is no longer live). -/
def consumeTimer (w : World) (t : TimerHandle) : World :=
  { w with
    lobby := { w.lobby with timer := none }
    live := w.live.erase t.tid }

/-- The blank-filling step of the answer-phase timer callback, lifted to the
world. -/
def answerTimeout (w : World) : World :=
  { w with lobby := fillBlanks w.lobby }

/-- The default-question substitution of the question-phase timer callback. -/
def questionTimeout (w : World) : World :=
  if w.lobby.currentQuestion == "" then
    { w with lobby := { w.lobby with
      currentQuestion := "What's the best thing about being alive?" } }
  else w

/-- Firing of the pending `setTimeout`, if any: the handle clears itself,
then the callback registered by the phase that started the timer runs
against the current lobby state (whatever phase the lobby is in now). -/
def fireTimer (w : World) : Option World :=
  match w.lobby.timer with
  | none => some w
  | some t =>
      match t.owner with
      | Phase.question => startAnswerPhase (questionTimeout (consumeTimer w t))
      | Phase.answering => startRevealPhase (answerTimeout (consumeTimer w t))
      | Phase.guessing => scoreGuesses (consumeTimer w t)
      | Phase.voting => some (tallyVotes (consumeTimer w t))
      | _ => some (consumeTimer w t)

/-- The `join_lobby` case of `handleMessage` (restricted to the lobby the
world models, so the lobby-lookup failure branch is out of scope): reject
when the game is running or the lobby is full, otherwise add the player with
a fresh generated id. -/
def handleJoinLobby (w : World) (name : String) : World × List Event :=
  if w.lobby.phase ≠ Phase.lobby then
    (w, [Event.errorMsg "Game already in progress"])
  else if w.lobby.players.length ≥ 10 then
    (w, [Event.errorMsg "Lobby is full (max 10)"])
  else
    let id := w.ids w.idCtr
    ({ w with
        lobby := { w.lobby with
          players := w.lobby.players ++
            [{ id := id, name := name.take 20, score := 0, connected := true }] }
        idCtr := w.idCtr + 1 }, [])

/-- The `start_game` case of `handleMessage`: silently ignored unless the
sender is the host; with fewer than 3 players (connected or not) the sender
gets an error, otherwise the game starts. -/
def handleStartGame (w : World) (sender : String) : Option (World × List Event) :=
  if w.lobby.hostId ≠ sender then some (w, [])
  else if w.lobby.players.length < 3 then
    some (w, [Event.errorMsg "Need at least 3 players"])
  else
    (startGame w).map fun w' => (w', [])

/-- The `submit_question` case of `handleMessage`: only in the question
phase and only from the guesser; stores the truncated question, cancels the
question timer and enters the answer phase. -/
def handleSubmitQuestion (w : World) (sender question : String) :
    Option (World × List Event) :=
  if w.lobby.phase ≠ Phase.question then some (w, [])
  else
    match getGuesser w.lobby with
    | none => none
    | some g =>
        if g.id ≠ sender then some (w, [])
        else
          let w := { w with lobby := { w.lobby with
            currentQuestion := question.take 200 } }
          (startAnswerPhase (clearTimer w)).map fun w' => (w', [])

/-- The `submit_answer` case of `handleMessage`: only in the answering phase
and never from the guesser; stores the truncated answer and, once every
answerer has submitted, cancels the timer and enters the reveal phase. -/
def handleSubmitAnswer (w : World) (sender answer : String) :
    Option (World × List Event) :=
  if w.lobby.phase ≠ Phase.answering then some (w, [])
  else
    match getGuesser w.lobby with
    | none => none
    | some g =>
        if sender = g.id then some (w, [])
        else
          let w := { w with lobby := { w.lobby with
            answers := aset w.lobby.answers sender (answer.take 300) } }
          if (getAnswerers w.lobby).all (fun p => ahas w.lobby.answers p.id) then
            (startRevealPhase (clearTimer w)).map fun w' => (w', [])
          else
            some (w, [])

/-- The `next_reveal` case of `handleMessage`: only in the reveal phase and
only from the guesser; advances the reveal index and, once the shuffled list
is exhausted, enters the guessing phase. -/
def handleNextReveal (w : World) (sender : String) : Option (World × List Event) :=
  if w.lobby.phase ≠ Phase.reveal then some (w, [])
  else
    match getGuesser w.lobby with
    | none => none
    | some g =>
        if g.id ≠ sender then some (w, [])
        else
          let w := { w with lobby := { w.lobby with
            revealIndex := w.lobby.revealIndex + 1 } }
          if w.lobby.revealIndex ≥ w.lobby.shuffledAnswers.length then
            (startGuessingPhase w).map fun w' => (w', [])
          else
            some (w, [])

/-- The `submit_guesses` case of `handleMessage`: only in the guessing phase
and only from the guesser; replaces the guess map, cancels the timer and
scores. -/
def handleSubmitGuesses (w : World) (sender : String) (guesses : AMap) :
    Option (World × List Event) :=
  if w.lobby.phase ≠ Phase.guessing then some (w, [])
  else
    match getGuesser w.lobby with
    | none => none
    | some g =>
        if g.id ≠ sender then some (w, [])
        else
          let w := { w with lobby := { w.lobby with guesses := guesses } }
          (scoreGuesses (clearTimer w)).map fun w' => (w', [])

/-- The two vote-recording conditionals of the `vote` case: a vote counts
only when its category string matches and the answer id is truthy
(non-empty); resubmission overwrites via `aset`. -/
def recordVotes (l : Lobby) (sender category answerId : String) : Lobby :=
  let l1 := if category == "best" && answerId != "" then
      { l with votesBest := aset l.votesBest sender answerId } else l
  if category == "funniest" && answerId != "" then
    { l1 with votesFunniest := aset l1.votesFunniest sender answerId } else l1

/-- The `allVoted` check of the `vote` case: every entry of the roster,
connected or not, guesser included, must have a vote in both categories. -/
def allVoted (l : Lobby) : Bool :=
  l.players.all fun p => ahas l.votesBest p.id && ahas l.votesFunniest p.id

/-- The `vote` case of `handleMessage`: only in the voting phase; records a
last-write-wins vote per category (a missing or empty answer id is falsy and
ignored) and, once every player in the roster has voted in both categories,
cancels the timer and tallies. -/
def handleVote (w : World) (sender category answerId : String) : World :=
  if w.lobby.phase ≠ Phase.voting then w
  else
    if allVoted (recordVotes w.lobby sender category answerId) then
      tallyVotes (clearTimer { w with lobby := recordVotes w.lobby sender category answerId })
    else
      { w with lobby := recordVotes w.lobby sender category answerId }

/-- The `next_turn` case of `handleMessage`: only in the results phase and
only from the host. -/
def handleNextTurn (w : World) (sender : String) : Option (World × List Event) :=
  if w.lobby.phase ≠ Phase.results then some (w, [])
  else if w.lobby.hostId ≠ sender then some (w, [])
  else (nextTurn w).map fun w' => (w', [])

/-- The `play_again` case of `handleMessage`: only from the host; returns
the lobby to the lobby phase and resets all scores.  No other field is
touched: the in-progress turn state and any pending timer are left as they
are (the next `startQuestionPhase` resets the turn state). -/
def handlePlayAgain (w : World) (sender : String) : World :=
  if w.lobby.hostId ≠ sender then w
  else
    { w with lobby := { w.lobby with
        phase := Phase.lobby
        players := w.lobby.players.map fun p => { p with score := 0 } } }

/-- The socket-close / socket-error cleanup `handleDisconnect`: mark the
player disconnected; once every player is disconnected the lobby is
destroyed, cancelling its pending timer (the deletion from the process-wide
directory is outside the single-lobby model). -/
def handleDisconnect (w : World) (pid : String) : World :=
  let l := { w.lobby with
    players := w.lobby.players.map fun p =>
      if p.id == pid then { p with connected := false } else p }
  let w := { w with lobby := l }
  if l.players.all (fun p => !p.connected) then clearTimer w else w

/-- The client-to-server messages of the dispatch switch that address an
existing lobby (`create_lobby` creates a fresh world via `initWorld`). -/
inductive ClientMsg where
  | joinLobby (name : String)
  | startGameMsg
  | submitQuestion (question : String)
  | submitAnswer (answer : String)
  | nextReveal
  | submitGuesses (guesses : AMap)
  | vote (category : String) (answerId : String)
  | nextTurnMsg
  | playAgain

/-- Embedding of the `handleMessage` switch for a sender registered to this
lobby. -/
def handleMessage (w : World) (sender : String) :
    ClientMsg → Option (World × List Event)
  | ClientMsg.joinLobby name => some (handleJoinLobby w name)
  | ClientMsg.startGameMsg => handleStartGame w sender
  | ClientMsg.submitQuestion q => handleSubmitQuestion w sender q
  | ClientMsg.submitAnswer a => handleSubmitAnswer w sender a
  | ClientMsg.nextReveal => handleNextReveal w sender
  | ClientMsg.submitGuesses gs => handleSubmitGuesses w sender gs
  | ClientMsg.vote c aid => some (handleVote w sender c aid, [])
  | ClientMsg.nextTurnMsg => handleNextTurn w sender
  | ClientMsg.playAgain => some (handlePlayAgain w sender, [])

/-- Everything that can happen to a lobby after creation: a client message,
a transport disconnect, or the pending timer firing. -/
inductive Op where
  | msg (sender : String) (m : ClientMsg)
  | disconnect (pid : String)
  | timerFires

/-- Apply one operation to the world (`none` models a crash of the event
handler). -/
def applyOp (w : World) : Op → Option World
  | Op.msg sender m => (handleMessage w sender m).map Prod.fst
  | Op.disconnect pid => some (handleDisconnect w pid)
  | Op.timerFires => fireTimer w
/-- Fixed shuffle oracle (always draws index 0) used by the concrete runs. -/
def rnd0 : Nat → Nat → Nat := fun _ _ => 0

/-- Fixed id oracle used by the concrete runs. -/
def ids0 : Nat → String := fun n => "gid" ++ toString n

/-- Concrete lobby: host "h", then "Bob" (gid0) and "Carol" (gid1) join. -/
def fwThree : World :=
  (handleJoinLobby (handleJoinLobby (initWorld "ABCDE" "h" "Host" rnd0 ids0) "Bob").1
    "Carol").1

/-- The same lobby after Carol's transport drops: 3 players in the roster,
only 2 of them connected, still in the lobby phase. -/
def fwDisc : World := handleDisconnect fwThree "gid1"

/-- The lobby after the host starts the game (question phase, question timer
pending). -/
def fwStarted : World :=
  match handleStartGame fwThree "h" with
  | some p => p.1
  | none => fwThree

/-- The lobby after the guesser (gid0) submits the question "Q?" (answering
phase, answer timer pending). -/
def fwAnswering : World :=
  match handleSubmitQuestion fwStarted "gid0" "Q?" with
  | some p => p.1
  | none => fwStarted

/-- Observation: the score of the first player with the given id, 0 when no
such player exists. -/
def scoreOf (ps : List Player) (pid : String) : Nat :=
  ((ps.find? fun p => p.id == pid).map Player.score).getD 0

/-- Specification-side count (for comparison with `scoreGuesses`): the
number of shuffled answers whose entry in the guess map equals the answer's
true author id; an answer with no guess entry matches nothing. -/
def specCorrectCount (l : Lobby) : Nat :=
  (l.shuffledAnswers.filter fun a => aget l.guesses a.id == some a.playerId).length

/-- The largest count appearing in a tally list (0 for the empty tally). -/
def maxCount : List (String × Nat) → Nat
  | [] => 0
  | e :: rest => max e.2 (maxCount rest)

/-- Observation: the author credited for a winning answer id — the author of
the first shuffled answer with that id, provided that author appears in the
player list (the cases in which `tallyVotes` awards a bonus point). -/
def winningAuthor (l : Lobby) (winner : Option String) : Option String :=
  winner.bind fun aid =>
    (l.shuffledAnswers.find? fun a => a.id == aid).bind fun a =>
      (l.players.find? fun p => p.id == a.playerId).map fun _ => a.playerId

/-- The at-most-one-pending-timer invariant: the live `setTimeout` handles
of a lobby are exactly the one recorded in its `timer` field — in
particular there is never more than one. -/
def TimerInv (w : World) : Prop :=
  match w.lobby.timer with
  | some t => w.live = [t.tid]
  | none => w.live = []

/-- Concrete lobby in the guessing phase realising the worked example of the
specification: answers a1 (author P1) and a2 (author P2), guesses
a1 ↦ P2 and a2 ↦ P2, guesser P3. -/
def fwGuessing : World where
  lobby :=
    { code := "ABCDE"
      hostId := "P1"
      players :=
        [{ id := "P1", name := "Alice", score := 0, connected := true },
         { id := "P2", name := "Bella", score := 0, connected := true },
         { id := "P3", name := "Cara", score := 0, connected := true }]
      phase := Phase.guessing
      currentGuesserIdx := 0
      guesserOrder := ["P3"]
      currentQuestion := "Q"
      answers := [("P1", "t1"), ("P2", "t2")]
      revealIndex := 2
      guesses := [("a1", "P2"), ("a2", "P2")]
      timer := some ⟨5, Phase.guessing, 60⟩
      votesBest := []
      votesFunniest := []
      shuffledAnswers := [⟨"a1", "t1", "P1"⟩, ⟨"a2", "t2", "P2"⟩]
      guessResults := none }
  live := [5]
  nextTid := 6
  rnd := rnd0
  rndCtr := 9
  ids := ids0
  idCtr := 9

/-- Concrete lobby in the voting phase realising the worked tally example of
the specification: best votes v1 ↦ a1, v2 ↦ a1, v3 ↦ a2 and no funniest
votes; a1 was authored by v2 and a2 by v3. -/
def fwVoting : World where
  lobby :=
    { code := "ABCDE"
      hostId := "v1"
      players :=
        [{ id := "v1", name := "Ada", score := 0, connected := true },
         { id := "v2", name := "Ben", score := 0, connected := true },
         { id := "v3", name := "Cy", score := 0, connected := true }]
      phase := Phase.voting
      currentGuesserIdx := 0
      guesserOrder := ["v1"]
      currentQuestion := "Q"
      answers := [("v2", "t1"), ("v3", "t2")]
      revealIndex := 2
      guesses := []
      timer := some ⟨7, Phase.voting, 20⟩
      votesBest := [("v1", "a1"), ("v2", "a1"), ("v3", "a2")]
      votesFunniest := []
      shuffledAnswers := [⟨"a1", "t1", "v2"⟩, ⟨"a2", "t2", "v3"⟩]
      guessResults := none }
  live := [7]
  nextTid := 8
  rnd := rnd0
  rndCtr := 9
  ids := ids0
  idCtr := 9

/-- Concrete lobby in the voting phase with a disconnected player (q2) who
has cast no vote, while the connected player q1 has voted in both
categories. -/
def fwVoteGate : World where
  lobby :=
    { code := "ABCDE"
      hostId := "q1"
      players :=
        [{ id := "q1", name := "Ada", score := 0, connected := true },
         { id := "q2", name := "Ben", score := 0, connected := false },
         { id := "q3", name := "Cy", score := 0, connected := true }]
      phase := Phase.voting
      currentGuesserIdx := 0
      guesserOrder := ["q1"]
      currentQuestion := "Q"
      answers := [("q2", "t1"), ("q3", "t2")]
      revealIndex := 2
      guesses := []
      timer := some ⟨7, Phase.voting, 20⟩
      votesBest := [("q1", "a1")]
      votesFunniest := [("q1", "a2")]
      shuffledAnswers := [⟨"a1", "t1", "q2"⟩, ⟨"a2", "t2", "q3"⟩]
      guessResults := none }
  live := [7]
  nextTid := 8
  rnd := rnd0
  rndCtr := 9
  ids := ids0
  idCtr := 9
-- ────────────────────────────────────────────────────────────────────
-- FrameCodec: the raw WebSocket layer of the no-dependency server variant
-- ────────────────────────────────────────────────────────────────────

/-- Left-rotation of a 32-bit word by `b` places: the two shifted parts are
disjoint, so the bitwise or of the standard definition is an addition. -/
def rotl32 (b n : Nat) : Nat :=
  n * 2 ^ b % 2 ^ 32 + n / 2 ^ (32 - b)

/-- Modelled from the spec: the round constants of the SHA-1 standard
(`crypto.createHash('sha1')` is an external library primitive, implemented
here from the standard). -/
def sha1K (i : Nat) : Nat :=
  if i < 20 then 0x5A827999
  else if i < 40 then 0x6ED9EBA1
  else if i < 60 then 0x8F1BBCDC
  else 0xCA62C1D6

/-- Modelled from the spec: the round functions of the SHA-1 standard (the
complement of a 32-bit word `x` is `2^32 - 1 - x`). -/
def sha1F (i b c d : Nat) : Nat :=
  if i < 20 then Nat.lor (Nat.land b c) (Nat.land (2 ^ 32 - 1 - b) d)
  else if i < 40 then Nat.xor (Nat.xor b c) d
  else if i < 60 then Nat.lor (Nat.lor (Nat.land b c) (Nat.land b d)) (Nat.land c d)
  else Nat.xor (Nat.xor b c) d

/-- Big-endian bytes of a 64-bit quantity (the `writeBigUInt64BE` layout,
also used for the SHA-1 length field). -/
def be64 (n : Nat) : List Nat :=
  [n / 2 ^ 56 % 256, n / 2 ^ 48 % 256, n / 2 ^ 40 % 256, n / 2 ^ 32 % 256,
   n / 2 ^ 24 % 256, n / 2 ^ 16 % 256, n / 2 ^ 8 % 256, n % 256]

/-- Modelled from the spec: SHA-1 padding — append 0x80, zero bytes to 56
mod 64, then the bit length as 8 big-endian bytes. -/
def sha1Pad (msg : List Nat) : List Nat :=
  msg ++ [0x80] ++ List.replicate ((119 - msg.length % 64) % 64) 0
    ++ be64 (msg.length * 8)

/-- Big-endian 32-bit words from a byte list. -/
def bytesToWords : List Nat → List Nat
  | b0 :: b1 :: b2 :: b3 :: rest =>
      (((b0 * 256 + b1) * 256 + b2) * 256 + b3) :: bytesToWords rest
  | _ => []

/-- Split a byte list into 64-byte blocks (fuel-counted on the length). -/
def chunks64Aux : Nat → List Nat → List (List Nat)
  | 0, _ => []
  | _, [] => []
  | Nat.succ m, l => l.take 64 :: chunks64Aux m (l.drop 64)

/-- Modelled from the spec: extend the 16 message words to 80 by xor-ing
and rotating earlier words, per the SHA-1 standard. -/
def scheduleExt (w : List Nat) : Nat → List Nat
  | 0 => w
  | Nat.succ m =>
      scheduleExt
        (w ++ [rotl32 1 (Nat.xor
          (Nat.xor (w.getD (w.length - 3) 0) (w.getD (w.length - 8) 0))
          (Nat.xor (w.getD (w.length - 14) 0) (w.getD (w.length - 16) 0)))]) m

/-- Modelled from the spec: the 80-round SHA-1 compression loop. -/
def sha1Loop (ws : List Nat) : Nat → Nat → Nat × Nat × Nat × Nat × Nat
    → Nat × Nat × Nat × Nat × Nat
  | _, 0, st => st
  | i, Nat.succ fuel, (a, b, c, d, e) =>
      sha1Loop ws (i + 1) fuel
        ((rotl32 5 a + sha1F i b c d + e + sha1K i + ws.getD i 0) % 2 ^ 32,
         a, rotl32 30 b, c, d)

/-- Modelled from the spec: one SHA-1 block step. -/
def sha1Block (h : Nat × Nat × Nat × Nat × Nat) (block : List Nat) :
    Nat × Nat × Nat × Nat × Nat :=
  let ws := scheduleExt (bytesToWords block) 64
  match sha1Loop ws 0 80 h with
  | (a, b, c, d, e) =>
      ((h.1 + a) % 2 ^ 32, (h.2.1 + b) % 2 ^ 32, (h.2.2.1 + c) % 2 ^ 32,
       (h.2.2.2.1 + d) % 2 ^ 32, (h.2.2.2.2 + e) % 2 ^ 32)

/-- Big-endian bytes of a 32-bit word. -/
def wordToBytes (n : Nat) : List Nat :=
  [n / 2 ^ 24 % 256, n / 2 ^ 16 % 256, n / 2 ^ 8 % 256, n % 256]

/-- Modelled from the spec: the SHA-1 digest of a byte sequence (the
server's `crypto.createHash('sha1').update(...).digest()`). -/
def sha1 (msg : List Nat) : List Nat :=
  match (chunks64Aux (sha1Pad msg).length (sha1Pad msg)).foldl sha1Block
      (0x67452301, 0xEFCDAB89, 0x98BADCFE, 0x10325476, 0xC3D2E1F0) with
  | (a, b, c, d, e) =>
      wordToBytes a ++ wordToBytes b ++ wordToBytes c ++ wordToBytes d
        ++ wordToBytes e

/-- The standard base64 alphabet. -/
def base64Chars : List Char :=
  "ABCDEFGHIJKLMNOPQRSTUVWXYZabcdefghijklmnopqrstuvwxyz0123456789+/".data

/-- Modelled from the spec: base64 encoding of a byte sequence (the
server's `.digest('base64')`). -/
def b64Aux : List Nat → List Char
  | b0 :: b1 :: b2 :: rest =>
      base64Chars.getD ((b0 * 65536 + b1 * 256 + b2) / 262144) 'A'
        :: base64Chars.getD ((b0 * 65536 + b1 * 256 + b2) / 4096 % 64) 'A'
        :: base64Chars.getD ((b0 * 65536 + b1 * 256 + b2) / 64 % 64) 'A'
        :: base64Chars.getD ((b0 * 65536 + b1 * 256 + b2) % 64) 'A'
        :: b64Aux rest
  | [b0, b1] =>
      [base64Chars.getD ((b0 * 65536 + b1 * 256) / 262144) 'A',
       base64Chars.getD ((b0 * 65536 + b1 * 256) / 4096 % 64) 'A',
       base64Chars.getD ((b0 * 65536 + b1 * 256) / 64 % 64) 'A', '=']
  | [b0] =>
      [base64Chars.getD (b0 * 65536 / 262144) 'A',
       base64Chars.getD (b0 * 65536 / 4096 % 64) 'A', '=', '=']
  | [] => []

/-- Base64 encoding as a string. -/
def base64Encode (bytes : List Nat) : String :=
  String.mk (b64Aux bytes)

/-- ASCII bytes of a string (all handshake material is ASCII). -/
def strBytes (s : String) : List Nat :=
  s.data.map Char.toNat

/-- The fixed magic GUID of the WebSocket opening handshake. -/
def wsGUID : String := "258EAFA5-E914-47DA-95CA-5AB5A04DF50A"

/-- The `Sec-WebSocket-Accept` computation of `acceptWebSocket`: base64 of
the SHA-1 digest of the client key concatenated with the magic GUID. -/
def acceptKey (key : String) : String :=
  base64Encode (sha1 (strBytes (key ++ wsGUID)))

/-- The `101 Switching Protocols` response written by `acceptWebSocket`. -/
def acceptResponse (key : String) : String :=
  "HTTP/1.1 101 Switching Protocols\r\n"
    ++ "Upgrade: websocket\r\n"
    ++ "Connection: Upgrade\r\n"
    ++ "Sec-WebSocket-Accept: " ++ acceptKey key ++ "\r\n"
    ++ "\r\n"

/-- Embedding of `ws.send`: an unfragmented text frame, first byte 0x81
(FIN + text opcode), no mask, with the three-tier payload-length encoding
(7-bit direct, marker 126 + 16-bit big-endian, marker 127 + 64-bit
big-endian). -/
def encodeTextFrame (payload : List Nat) : List Nat :=
  if payload.length < 126 then
    0x81 :: payload.length :: payload
  else if payload.length < 65536 then
    0x81 :: 126 :: payload.length / 256 :: payload.length % 256 :: payload
  else
    0x81 :: 127 :: (be64 payload.length ++ payload)

/-- The unmasking loop `payload[i] ^= mask[i % 4]`. -/
def unmask (mask : List Nat) (i : Nat) : List Nat → List Nat
  | [] => []
  | b :: rest => Nat.xor b (mask.getD (i % 4) 0) :: unmask mask (i + 1) rest

/-- The tail of one decode-loop iteration, after the payload length is
known: check the mask flag, wait for missing bytes (`none`), unmask when
masked, and split off the payload. -/
def parsePayload (opcode : Nat) (masked : Bool) (payloadLen : Nat)
    (r : List Nat) : Option (Nat × List Nat × List Nat) :=
  if masked then
    match r with
    | m0 :: m1 :: m2 :: m3 :: r2 =>
        if r2.length < payloadLen then none
        else some (opcode, unmask [m0, m1, m2, m3] 0 (r2.take payloadLen),
          r2.drop payloadLen)
    | _ => none
  else
    if r.length < payloadLen then none
    else some (opcode, r.take payloadLen, r.drop payloadLen)

/-- Embedding of one iteration of the inbound frame-decode loop: read the
first two header bytes, the three-tier payload length, then the (optionally
masked) payload; `none` when the buffer does not yet hold a whole frame.
Returns the opcode, the payload bytes and the remaining buffer. -/
def parseFrame (buffer : List Nat) : Option (Nat × List Nat × List Nat) :=
  match buffer with
  | b0 :: b1 :: rest =>
      if b1 % 128 = 126 then
        match rest with
        | c0 :: c1 :: r =>
            parsePayload (b0 % 16) (b1 / 128 % 2 != 0) (c0 * 256 + c1) r
        | _ => none
      else if b1 % 128 = 127 then
        match rest with
        | c0 :: c1 :: c2 :: c3 :: c4 :: c5 :: c6 :: c7 :: r =>
            parsePayload (b0 % 16) (b1 / 128 % 2 != 0)
              (((((((c0 * 256 + c1) * 256 + c2) * 256 + c3) * 256 + c4) * 256
                + c5) * 256 + c6) * 256 + c7) r
        | _ => none
      else
        parsePayload (b0 % 16) (b1 / 128 % 2 != 0) (b1 % 128) rest
  | _ => none

-- ────────────────────────────────────────────────────────────────────
-- Theorems
-- ────────────────────────────────────────────────────────────────────


theorem count_set_add {α : Type} [DecidableEq α] (l : List α) (i : Nat) (y x : α)
    (hi : i < l.length) :
    (l.set i y).count x + (if l[i] = x then 1 else 0)
      = l.count x + (if y = x then 1 else 0) := by
  induction l generalizing i with
  | nil => simp at hi
  | cons a t ih =>
    cases i with
    | zero =>
      simp only [List.set_cons_zero, List.getElem_cons_zero, List.count_cons]
      split_ifs <;> simp_all
    | succ n =>
      simp only [List.set_cons_succ, List.getElem_cons_succ, List.count_cons]
      have hn : n < t.length := by simpa using hi
      have h := ih n hn
      split_ifs at h ⊢ <;> simp_all

theorem swapIdx_perm {α : Type} [DecidableEq α] (l : List α) (i j : Nat) :
    (swapIdx l i j).Perm l := by
  cases hvi : l[i]? with
  | none => simp [swapIdx, hvi]
  | some vi =>
    cases hvj : l[j]? with
    | none => simp [swapIdx, hvi, hvj]
    | some vj =>
      have hsw : swapIdx l i j = (l.set i vj).set j vi := by
        simp [swapIdx, hvi, hvj]
      rw [hsw]
      have hi : i < l.length := (List.getElem?_eq_some.mp hvi).1
      have hj : j < l.length := (List.getElem?_eq_some.mp hvj).1
      have hvi' : l[i] = vi := (List.getElem?_eq_some.mp hvi).2
      have hvj' : l[j] = vj := (List.getElem?_eq_some.mp hvj).2
      rw [List.perm_iff_count]
      intro x
      have hj1 : j < (l.set i vj).length := by simpa using hj
      have h1 := count_set_add (l.set i vj) j vi x hj1
      have h2 := count_set_add l i vj x hi
      have hLj : (l.set i vj)[j] = vj := by
        rw [List.getElem_set]
        split_ifs with hij
        · rfl
        · rw [hvj']
      rw [hLj] at h1
      rw [hvi'] at h2
      split_ifs at h1 h2 ⊢ <;> omega

theorem fyLoop_perm {α : Type} [DecidableEq α] (rand : Nat → Nat) (l : List α) (n : Nat) :
    (fyLoop rand l n).Perm l := by
  induction n generalizing l with
  | zero => exact List.Perm.refl l
  | succ m ih =>
    exact (ih (swapIdx l (m + 1) (rand (m + 1)))).trans (swapIdx_perm l (m + 1) (rand (m + 1)))

theorem shuffleArray_perm {α : Type} [DecidableEq α] (rand : Nat → Nat) (arr : List α) :
    (shuffleArray rand arr).Perm arr :=
  fyLoop_perm rand arr (arr.length - 1)


theorem clearTimer_lobby (w : World) :
    (clearTimer w).lobby = { w.lobby with timer := none } := by
  unfold clearTimer
  split
  · rfl
  · rename_i heq
    rw [← heq]

theorem clearTimer_nextTid (w : World) : (clearTimer w).nextTid = w.nextTid := by
  unfold clearTimer; split <;> rfl

theorem clearTimer_rnd (w : World) : (clearTimer w).rnd = w.rnd := by
  unfold clearTimer; split <;> rfl

theorem clearTimer_rndCtr (w : World) : (clearTimer w).rndCtr = w.rndCtr := by
  unfold clearTimer; split <;> rfl

theorem clearTimer_ids (w : World) : (clearTimer w).ids = w.ids := by
  unfold clearTimer; split <;> rfl

theorem clearTimer_idCtr (w : World) : (clearTimer w).idCtr = w.idCtr := by
  unfold clearTimer; split <;> rfl

theorem startTimer_lobby (w : World) (o : Phase) (s : Nat) :
    (startTimer w o s).lobby = { w.lobby with timer := some ⟨w.nextTid, o, s⟩ } := by
  unfold startTimer
  simp only [clearTimer_lobby, clearTimer_nextTid]

theorem buildOrder_blocks (rnd : Nat → Nat → Nat) (pids : List String) :
    ∀ (R ctr : Nat), ∃ blocks : List (List String),
      (buildOrder rnd ctr pids R).1 = blocks.flatten
      ∧ blocks.length = R
      ∧ ∀ b ∈ blocks, b.Perm pids := by
  intro R
  induction R with
  | zero => exact fun ctr => ⟨[], rfl, rfl, by simp⟩
  | succ r ih =>
    intro ctr
    obtain ⟨blocks, h1, h2, h3⟩ := ih (ctr + 1)
    refine ⟨shuffleArray (rnd ctr) pids :: blocks, ?_, by simp [h2], ?_⟩
    · simp [buildOrder, h1]
    · intro b hb
      rcases List.mem_cons.mp hb with hb | hb
      · exact hb ▸ shuffleArray_perm (rnd ctr) pids
      · exact h3 b hb

theorem startGame_some (w : World) (h3 : 3 ≤ w.lobby.players.length) :
    ∃ w', startGame w = some w'
      ∧ w'.lobby.phase = Phase.question
      ∧ w'.lobby.currentGuesserIdx = 0
      ∧ w'.lobby.players = w.lobby.players.map (fun p => { p with score := 0 })
      ∧ w'.lobby.timer.isSome = true
      ∧ w'.lobby.guesserOrder
          = (buildOrder w.rnd w.rndCtr (w.lobby.players.map Player.id) ROUNDS).1 := by
  have hlen : 3 ≤ (w.lobby.players.map Player.id).length := by simpa using h3
  have hsplit : (buildOrder w.rnd w.rndCtr (w.lobby.players.map Player.id) ROUNDS).1
      = shuffleArray (w.rnd w.rndCtr) (w.lobby.players.map Player.id)
        ++ (buildOrder w.rnd (w.rndCtr + 1) (w.lobby.players.map Player.id) 2).1 := rfl
  have hslen : (shuffleArray (w.rnd w.rndCtr) (w.lobby.players.map Player.id)).length
      = (w.lobby.players.map Player.id).length :=
    (shuffleArray_perm _ _).length_eq
  have hpos : 0 < (shuffleArray (w.rnd w.rndCtr) (w.lobby.players.map Player.id)).length := by
    omega
  obtain ⟨g0, stail, hsh⟩ : ∃ g0 stail,
      shuffleArray (w.rnd w.rndCtr) (w.lobby.players.map Player.id)
        = g0 :: stail := by
    cases hs : shuffleArray (w.rnd w.rndCtr) (w.lobby.players.map Player.id) with
    | nil => rw [hs] at hpos; simp at hpos
    | cons a t => exact ⟨a, t, rfl⟩
  have hg0 : (buildOrder w.rnd w.rndCtr (w.lobby.players.map Player.id) ROUNDS).1[0]?
      = some g0 := by
    rw [hsplit, hsh, List.cons_append, List.getElem?_cons_zero]
  have hg0mem : g0 ∈ w.lobby.players.map Player.id :=
    (shuffleArray_perm _ _).mem_iff.mp (by rw [hsh]; simp)
  obtain ⟨q, hq, hqid⟩ := List.mem_map.mp hg0mem
  unfold startGame startQuestionPhase
  split
  case h_1 heq =>
    exfalso
    simp only [getGuesser, resetTurn] at heq
    rw [hg0] at heq
    simp only [Option.bind_some, Option.some_bind] at heq
    rw [List.find?_eq_none] at heq
    have hmem : ({ q with score := 0 } : Player) ∈ w.lobby.players.map
        (fun p => { p with score := 0 }) := List.mem_map.mpr ⟨q, hq, rfl⟩
    have hfalse := heq _ hmem
    simp [hqid] at hfalse
  case h_2 g heq =>
    refine ⟨_, rfl, ?_, ?_, ?_, ?_, ?_⟩ <;> simp [startTimer_lobby, resetTurn]


/-- C1 (amended): in the lobby phase, a start_game message from the host
begins the first question phase exactly when the roster holds at least 3
players, connected or not; with fewer than 3 roster players the sender
receives the error "Need at least 3 players" and the lobby is unchanged.
(The source checks `lobby.players.length`, not the number of connected
players.) -/
theorem start_game_roster_threshold (w : World) (s : String)
    (_hphase : w.lobby.phase = Phase.lobby) (hhost : w.lobby.hostId = s) :
    (w.lobby.players.length < 3 →
      handleStartGame w s = some (w, [Event.errorMsg "Need at least 3 players"]))
    ∧ (3 ≤ w.lobby.players.length →
      ∃ w', handleStartGame w s = some (w', [])
        ∧ w'.lobby.phase = Phase.question
        ∧ w'.lobby.currentGuesserIdx = 0
        ∧ (∀ p ∈ w'.lobby.players, p.score = 0)
        ∧ w'.lobby.timer.isSome = true) := by
  constructor
  · intro hlt
    simp [handleStartGame, hhost, hlt]
  · intro h3
    obtain ⟨w', hsg, hph, hidx, hpl, htm, _⟩ := startGame_some w h3
    refine ⟨w', ?_, hph, hidx, ?_, htm⟩
    · simp [handleStartGame, hhost, Nat.not_lt.mpr h3, hsg]
    · intro p hp
      rw [hpl] at hp
      obtain ⟨q, _, rfl⟩ := List.mem_map.mp hp
      rfl

/-- C1 counterexample: in the lobby `fwDisc` (3 roster players, host "h",
lobby phase) only 2 players are connected, yet the host's start_game does
not produce the "Need at least 3 players" error — it starts the game and
enters the question phase.  The claim's "at least 3 connected players"
threshold is therefore false of the code. -/
theorem start_game_ignores_connectivity :
    (fwDisc.lobby.players.filter (fun p => p.connected)).length = 2
    ∧ fwDisc.lobby.phase = Phase.lobby
    ∧ fwDisc.lobby.hostId = "h"
    ∧ fwDisc.lobby.players.length = 3
    ∧ (handleStartGame fwDisc "h").map (fun r => (r.1.lobby.phase, r.2))
        = some (Phase.question, []) :=
  ⟨rfl, rfl, rfl, rfl, rfl⟩

/-- Witness for `start_game_roster_threshold` at the concrete lobby
`fwThree`. -/
theorem start_game_roster_threshold_witness :
    fwThree.lobby.phase = Phase.lobby ∧ fwThree.lobby.hostId = "h"
    ∧ 3 ≤ fwThree.lobby.players.length
    ∧ (handleStartGame fwThree "h").map (fun r => r.1.lobby.phase)
        = some Phase.question := by
  refine ⟨rfl, rfl, by decide, ?_⟩
  obtain ⟨w', hsg, hph, -⟩ :=
    (start_game_roster_threshold fwThree "h" rfl rfl).2 (by decide)
  rw [hsg]
  exact congrArg some hph

/-- C2 (amended): a play_again from the host returns the lobby to the lobby
phase and resets every score to 0, and changes nothing else: the in-progress
turn state (current question, answers, shuffled list, guesses, votes, reveal
index) and any pending timer are left in place (they are only reset by the
next question phase); a play_again from a non-host is silently ignored. -/
theorem play_again_resets_only_phase_and_scores (w : World) (s : String) :
    (w.lobby.hostId ≠ s → handlePlayAgain w s = w)
    ∧ (w.lobby.hostId = s →
        handlePlayAgain w s = { w with lobby := { w.lobby with
          phase := Phase.lobby
          players := w.lobby.players.map fun p => { p with score := 0 } } }) := by
  constructor
  · intro h; simp [handlePlayAgain, h]
  · intro h; simp [handlePlayAgain, h]

/-- C2 counterexample: in the concrete lobby `fwAnswering` (answering phase,
current question "Q?", answer timer pending) the host's play_again returns
to the lobby phase but does not discard the turn state: the current question
and the pending timer survive, contradicting the claim's "discards all
in-progress turn state ... and any pending timer". -/
theorem play_again_keeps_turn_state :
    fwAnswering.lobby.currentQuestion = "Q?"
    ∧ fwAnswering.lobby.timer = some ⟨1, Phase.answering, TIMER_ANSWER⟩
    ∧ (handlePlayAgain fwAnswering "h").lobby.phase = Phase.lobby
    ∧ (handlePlayAgain fwAnswering "h").lobby.currentQuestion = "Q?"
    ∧ (handlePlayAgain fwAnswering "h").lobby.timer
        = some ⟨1, Phase.answering, TIMER_ANSWER⟩ :=
  ⟨rfl, rfl, rfl, rfl, rfl⟩

/-- Witness for `play_again_resets_only_phase_and_scores` at the concrete
lobby `fwAnswering`. -/
theorem play_again_witness :
    handlePlayAgain fwAnswering "nobody" = fwAnswering
    ∧ (handlePlayAgain fwAnswering "h").lobby.phase = Phase.lobby := by
  constructor
  · exact (play_again_resets_only_phase_and_scores fwAnswering "nobody").1 (by decide)
  · rw [(play_again_resets_only_phase_and_scores fwAnswering "h").2 rfl]

/-- C3 (code bug): the question-phase timer outlives its phase.  In the
concrete lobby `fwStarted` (question phase, question timer pending) the
host's play_again moves the lobby back to the lobby phase without cancelling
the timer: the handle stays pending and live, and when it later fires its
callback runs the question-timeout path, dragging the lobby from `lobby`
into `answering`. -/
theorem play_again_timer_outlives_phase :
    fwStarted.lobby.phase = Phase.question
    ∧ fwStarted.lobby.timer = some ⟨0, Phase.question, TIMER_QUESTION⟩
    ∧ (handlePlayAgain fwStarted "h").lobby.phase = Phase.lobby
    ∧ (handlePlayAgain fwStarted "h").lobby.timer
        = some ⟨0, Phase.question, TIMER_QUESTION⟩
    ∧ (handlePlayAgain fwStarted "h").live = [0]
    ∧ (fireTimer (handlePlayAgain fwStarted "h")).map (fun w => w.lobby.phase)
        = some Phase.answering :=
  ⟨rfl, rfl, rfl, rfl, rfl, rfl⟩

theorem startGame_guesserOrder (w w' : World) (hsg : startGame w = some w') :
    w'.lobby.guesserOrder
      = (buildOrder w.rnd w.rndCtr (w.lobby.players.map Player.id) ROUNDS).1 := by
  unfold startGame startQuestionPhase at hsg
  split at hsg
  · exact absurd hsg (by simp)
  · rw [Option.some_inj] at hsg
    rw [← hsg]
    simp [startTimer_lobby, resetTurn]

theorem count_flatten (ll : List (List String)) (x : String) :
    ll.flatten.count x = (ll.map (List.count x)).sum := by
  induction ll with
  | nil => rfl
  | cons h t ih => simp [List.count_append, ih]

theorem length_flatten_blocks (pids : List String) :
    ∀ blocks : List (List String), (∀ b ∈ blocks, b.Perm pids) →
      blocks.flatten.length = pids.length * blocks.length := by
  intro blocks
  induction blocks with
  | nil => simp
  | cons b t ih =>
    intro hall
    have hb : b.length = pids.length := (hall b (by simp)).length_eq
    have ht := ih fun x hx => hall x (by simp [hx])
    simp only [List.flatten_cons, List.length_append, List.length_cons, hb, ht]
    ring

/-- C4: the guesser rotation built at game start is the concatenation of
`ROUNDS` independently shuffled full permutations of the player-id list: it
splits into `ROUNDS` blocks, each a permutation of the ids, so it has length
N × ROUNDS, and when the ids are distinct each id appears exactly once per
block and exactly `ROUNDS` times overall. -/
theorem startGame_rotation (w w' : World) (hsg : startGame w = some w') :
    ∃ blocks : List (List String),
      w'.lobby.guesserOrder = blocks.flatten
      ∧ blocks.length = ROUNDS
      ∧ (∀ b ∈ blocks, b.Perm (w.lobby.players.map Player.id))
      ∧ w'.lobby.guesserOrder.length
          = (w.lobby.players.map Player.id).length * ROUNDS
      ∧ ((w.lobby.players.map Player.id).Nodup →
          ∀ pid ∈ w.lobby.players.map Player.id,
            w'.lobby.guesserOrder.count pid = ROUNDS
            ∧ ∀ b ∈ blocks, b.count pid = 1) := by
  obtain ⟨blocks, hfl, hlen, hperm⟩ :=
    buildOrder_blocks w.rnd (w.lobby.players.map Player.id) ROUNDS w.rndCtr
  have horder := startGame_guesserOrder w w' hsg
  rw [hfl] at horder
  refine ⟨blocks, horder, hlen, hperm, ?_, ?_⟩
  · rw [horder, length_flatten_blocks _ blocks hperm, hlen]
  · intro hnd pid hpid
    have hone : ∀ b ∈ blocks, b.count pid = 1 := by
      intro b hb
      rw [(hperm b hb).count_eq]
      exact List.count_eq_one_of_mem hnd hpid
    refine ⟨?_, hone⟩
    rw [horder, count_flatten]
    have hmap : blocks.map (List.count pid)
        = List.replicate (blocks.map (List.count pid)).length 1 := by
      apply List.eq_replicate_of_mem
      intro c hc
      obtain ⟨b, hb, rfl⟩ := List.mem_map.mp hc
      exact hone b hb
    rw [hmap, List.sum_replicate, List.length_map, hlen]
    simp

/-- Witness for `startGame_rotation` at the concrete 3-player lobby
`fwThree`: the rotation has length 9 and each player id occurs 3 times. -/
theorem startGame_rotation_witness :
    (startGame fwThree).map (fun w => w.lobby.guesserOrder.length) = some 9
    ∧ (startGame fwThree).map
        (fun w => (w.lobby.guesserOrder.count "h",
          w.lobby.guesserOrder.count "gid0", w.lobby.guesserOrder.count "gid1"))
      = some (3, 3, 3) := by
  have hS : (startGame fwThree).isSome = true := rfl
  have hsg : startGame fwThree = some ((startGame fwThree).get hS) :=
    (Option.some_get hS).symm
  obtain ⟨blocks, hfl, hlen, hperm, hlength, hcount⟩ :=
    startGame_rotation fwThree _ hsg
  have hnd : (fwThree.lobby.players.map Player.id).Nodup := by decide
  constructor
  · rw [hsg]
    refine congrArg some ?_
    show ((startGame fwThree).get hS).lobby.guesserOrder.length = 9
    rw [hlength]
    rfl
  · rw [hsg]
    refine congrArg some ?_
    show (((startGame fwThree).get hS).lobby.guesserOrder.count "h",
        ((startGame fwThree).get hS).lobby.guesserOrder.count "gid0",
        ((startGame fwThree).get hS).lobby.guesserOrder.count "gid1") = (3, 3, 3)
    have hh := (hcount hnd "h" (by decide)).1
    have h0 := (hcount hnd "gid0" (by decide)).1
    have h1 := (hcount hnd "gid1" (by decide)).1
    rw [hh, h0, h1]
    rfl

theorem scoreLoop_count (players : List Player) (guesses : AMap) :
    ∀ (ans : List ShAnswer) (res : Nat × List GuessResult),
      scoreLoop players guesses ans = some res →
      res.1 = (ans.filter fun a => aget guesses a.id == some a.playerId).length := by
  intro ans
  induction ans with
  | nil =>
    intro res h
    simp only [scoreLoop, Option.some_inj] at h
    rw [← h]
    rfl
  | cons a rest ih =>
    intro res h
    unfold scoreLoop at h
    cases hf : players.find? (fun p => p.id == a.playerId) with
    | none => rw [hf] at h; simp at h
    | some actual =>
      rw [hf] at h
      simp only [Option.bind_eq_bind, Option.some_bind] at h
      cases hrec : scoreLoop players guesses rest with
      | none => rw [hrec] at h; simp at h
      | some tail =>
        rw [hrec] at h
        simp only [Option.bind_eq_bind, Option.some_bind, Option.some_inj] at h
        have htail := ih tail hrec
        rw [← h]
        simp only [List.filter_cons]
        by_cases hc : (aget guesses a.id == some a.playerId) = true
        · simp [hc, htail]
        · simp [hc, htail]

theorem scoreOf_bumpScore_self (ps : List Player) (k : String) (d : Nat)
    (h : (ps.find? fun p => p.id == k).isSome = true) :
    scoreOf (bumpScore ps k d) k = scoreOf ps k + d := by
  induction ps with
  | nil => simp [List.find?] at h
  | cons p rest ih =>
    by_cases hp : (p.id == k) = true
    · simp [bumpScore, hp, scoreOf, List.find?_cons]
    · have hp1 : (p.id == k) = false := by simpa using hp
      have h1 : (rest.find? fun p => p.id == k).isSome = true := by
        simpa [List.find?_cons, hp1] using h
      simpa [bumpScore, hp1, scoreOf, List.find?_cons] using ih h1

theorem scoreOf_bumpScore_other (ps : List Player) (k : String) (d : Nat)
    (q : String) (hne : q ≠ k) :
    scoreOf (bumpScore ps k d) q = scoreOf ps q := by
  induction ps with
  | nil => rfl
  | cons p rest ih =>
    by_cases hpk : (p.id == k) = true
    · have hpq : (p.id == q) = false := by
        rcases Bool.eq_false_or_eq_true (p.id == q) with hb | hb
        · exact absurd ((eq_of_beq hb).symm.trans (eq_of_beq hpk)) hne
        · exact hb
      simp [bumpScore, hpk, scoreOf, List.find?_cons, hpq]
    · have hpk1 : (p.id == k) = false := by simpa using hpk
      by_cases hpq : (p.id == q) = true
      · simp [bumpScore, hpk1, scoreOf, List.find?_cons, hpq]
      · have hpq1 : (p.id == q) = false := by simpa using hpq
        simpa [bumpScore, hpk1, scoreOf, List.find?_cons, hpq1] using ih

theorem getGuesser_find_self (l : Lobby) (g : Player) (hg : getGuesser l = some g) :
    (l.players.find? fun p => p.id == g.id).isSome = true := by
  unfold getGuesser at hg
  cases ho : l.guesserOrder[l.currentGuesserIdx]? with
  | none => rw [ho] at hg; simp at hg
  | some gid =>
    rw [ho] at hg
    simp only [Option.bind_eq_bind, Option.some_bind] at hg
    have hb := List.find?_some hg
    have hgid : g.id = gid := eq_of_beq (by simpa using hb)
    rw [← hgid] at hg
    rw [hg]
    rfl

/-- C5: `scoreGuesses` moves to the voting phase, increases the guesser's
score by exactly the number of shuffled answers whose entry in the guess map
equals the answer's true author id (an answer with no entry matches nothing
and contributes zero), and leaves every other id's score unchanged. -/
theorem scoreGuesses_spec (w w' : World) (g : Player)
    (hg : getGuesser w.lobby = some g)
    (hs : scoreGuesses w = some w') :
    w'.lobby.phase = Phase.voting
    ∧ scoreOf w'.lobby.players g.id
        = scoreOf w.lobby.players g.id + specCorrectCount w.lobby
    ∧ (∀ pid, pid ≠ g.id →
        scoreOf w'.lobby.players pid = scoreOf w.lobby.players pid) := by
  unfold scoreGuesses at hs
  rw [hg] at hs
  simp only [Option.bind_eq_bind, Option.some_bind] at hs
  cases hsc : scoreLoop w.lobby.players w.lobby.guesses w.lobby.shuffledAnswers with
  | none => rw [hsc] at hs; simp at hs
  | some scored =>
    rw [hsc] at hs
    simp only [Option.bind_eq_bind, Option.some_bind] at hs
    unfold startVotingPhase at hs
    split at hs
    · simp at hs
    · rw [Option.some_inj] at hs
      rw [← hs]
      have hcount := scoreLoop_count w.lobby.players w.lobby.guesses
        w.lobby.shuffledAnswers scored hsc
      have hfind := getGuesser_find_self w.lobby g hg
      refine ⟨by simp [startTimer_lobby, setPhase], ?_, ?_⟩
      · simp only [startTimer_lobby, setPhase]
        rw [show specCorrectCount w.lobby = scored.1 from hcount.symm]
        exact scoreOf_bumpScore_self w.lobby.players g.id scored.1 hfind
      · intro pid hne
        simp only [startTimer_lobby, setPhase]
        exact scoreOf_bumpScore_other w.lobby.players g.id scored.1 pid hne

/-- Witness for `scoreGuesses_spec` at the worked example `fwGuessing`:
answers `[{a1, author P1}, {a2, author P2}]` with guesses
`{a1 ↦ P2, a2 ↦ P2}` give correct count 1, and the guesser P3's score goes
up by exactly 1. -/
theorem scoreGuesses_spec_witness :
    specCorrectCount fwGuessing.lobby = 1
    ∧ (scoreGuesses fwGuessing).map (fun w => scoreOf w.lobby.players "P3")
        = some (scoreOf fwGuessing.lobby.players "P3" + 1) := by
  have hS : (scoreGuesses fwGuessing).isSome = true := rfl
  have hs : scoreGuesses fwGuessing = some ((scoreGuesses fwGuessing).get hS) :=
    (Option.some_get hS).symm
  have hg : getGuesser fwGuessing.lobby
      = some { id := "P3", name := "Cara", score := 0, connected := true } := rfl
  obtain ⟨-, hscore, -⟩ := scoreGuesses_spec fwGuessing _ _ hg hs
  refine ⟨rfl, ?_⟩
  rw [hs]
  refine congrArg some ?_
  have hscore1 : scoreOf ((scoreGuesses fwGuessing).get hS).lobby.players "P3"
      = scoreOf fwGuessing.lobby.players "P3" + specCorrectCount fwGuessing.lobby :=
    hscore
  show scoreOf ((scoreGuesses fwGuessing).get hS).lobby.players "P3"
      = scoreOf fwGuessing.lobby.players "P3" + 1
  rw [hscore1]
  rfl

theorem le_maxCount (counts : List (String × Nat)) (e : String × Nat)
    (h : e ∈ counts) : e.2 ≤ maxCount counts := by
  induction counts with
  | nil => simp at h
  | cons c rest ih =>
    rcases List.mem_cons.mp h with rfl | h
    · simp [maxCount]
    · exact le_trans (ih h) (by simp [maxCount])

theorem pickGo_skip (counts : List (String × Nat)) :
    ∀ acc : Option String × Nat, (∀ e ∈ counts, e.2 ≤ acc.2) →
      counts.foldl (fun acc e => if e.2 > acc.2 then (some e.1, e.2) else acc) acc
        = acc := by
  induction counts with
  | nil => intro acc _; rfl
  | cons c rest ih =>
    intro acc hall
    have hc : ¬ c.2 > acc.2 := not_lt.mpr (hall c (by simp))
    simp only [List.foldl_cons, if_neg hc]
    exact ih acc fun e he => hall e (by simp [he])

theorem pickGo_char (counts : List (String × Nat)) :
    ∀ acc : Option String × Nat, acc.2 < maxCount counts →
      ∃ wid, counts.foldl (fun acc e => if e.2 > acc.2 then (some e.1, e.2) else acc) acc
          = (some wid, maxCount counts)
        ∧ counts.find? (fun e => e.2 == maxCount counts)
            = some (wid, maxCount counts) := by
  induction counts with
  | nil => intro acc hacc; simp [maxCount] at hacc
  | cons c rest ih =>
    obtain ⟨k, n⟩ := c
    intro acc hacc
    by_cases hc : maxCount rest ≤ n
    · have hmx : maxCount ((k, n) :: rest) = n := by
        simp [maxCount, Nat.max_eq_left hc]
      rw [hmx] at hacc ⊢
      have hstep : (if n > acc.2 then (some k, n) else acc) = (some k, n) :=
        if_pos hacc
      refine ⟨k, ?_, ?_⟩
      · simp only [List.foldl_cons, hstep]
        exact pickGo_skip rest (some k, n) fun e he =>
          le_trans (le_maxCount rest e he) hc
      · rw [List.find?_cons]
        simp
    · push_neg at hc
      have hmx : maxCount ((k, n) :: rest) = maxCount rest := by
        simp [maxCount, Nat.max_eq_right (le_of_lt hc)]
      rw [hmx] at hacc ⊢
      have hne : (n == maxCount rest) = false :=
        beq_eq_false_iff_ne.mpr (Nat.ne_of_lt hc)
      have hacc2 : (if n > acc.2 then ((some k : Option String), n) else acc).2
          < maxCount rest := by
        split
        · exact hc
        · exact hacc
      obtain ⟨wid, hfold, hfind⟩ :=
        ih (if n > acc.2 then (some k, n) else acc) hacc2
      refine ⟨wid, ?_, ?_⟩
      · simpa only [List.foldl_cons] using hfold
      · rw [List.find?_cons]
        simpa [hne] using hfind

theorem bumpCount_pos (k : String) :
    ∀ m : List (String × Nat), (∀ e ∈ m, 1 ≤ e.2) →
      ∀ e ∈ bumpCount m k, 1 ≤ e.2 := by
  intro m
  induction m with
  | nil =>
    intro _ e he
    simp [bumpCount] at he
    simp [he]
  | cons c rest ih =>
    intro h e he
    by_cases hc : (c.1 == k) = true
    · simp only [bumpCount] at he
      rw [show (c.1 == k) = true from hc] at he
      simp at he
      rcases he with rfl | he
      · simp
      · exact h e (by simp [he])
    · simp only [bumpCount] at he
      rw [show (c.1 == k) = false from by simpa using hc] at he
      simp at he
      rcases he with rfl | he
      · exact h e (by simp)
      · exact ih (fun x hx => h x (by simp [hx])) e he

theorem countVotes_aux_pos (votes : AMap) :
    ∀ m : List (String × Nat), (∀ e ∈ m, 1 ≤ e.2) →
      ∀ e ∈ votes.foldl (fun m kv => bumpCount m kv.2) m, 1 ≤ e.2 := by
  induction votes with
  | nil => intro m hm; exact hm
  | cons v rest ih =>
    intro m hm
    exact ih (bumpCount m v.2) (bumpCount_pos v.2 m hm)

theorem bumpCount_ne_nil (m : List (String × Nat)) (k : String) :
    bumpCount m k ≠ [] := by
  cases m with
  | nil => simp [bumpCount]
  | cons c rest =>
    simp only [bumpCount]
    split <;> simp

theorem countVotes_aux_ne_nil (votes : AMap) :
    ∀ m : List (String × Nat), m ≠ [] →
      votes.foldl (fun m kv => bumpCount m kv.2) m ≠ [] := by
  induction votes with
  | nil => intro m hm; exact hm
  | cons v rest ih =>
    intro m _
    exact ih (bumpCount m v.2) (bumpCount_ne_nil m v.2)

theorem bumpScore_find_isSome (ps : List Player) (k : String) (d : Nat) (x : String) :
    ((bumpScore ps k d).find? fun p => p.id == x).isSome
      = (ps.find? fun p => p.id == x).isSome := by
  induction ps with
  | nil => rfl
  | cons p rest ih =>
    by_cases hpk : (p.id == k) = true
    · simp only [bumpScore, hpk, if_true]
      cases hx : (p.id == x) <;> simp [List.find?_cons, hx]
    · simp only [bumpScore, hpk, if_false, Bool.false_eq_true]
      cases hx : (p.id == x) <;> simp [List.find?_cons, hx, ih]

theorem scoreOf_awardBonus (l : Lobby) (ow : Option String) (pid : String) :
    scoreOf (awardBonus l ow).players pid
      = scoreOf l.players pid
        + (if winningAuthor l ow = some pid then 1 else 0) := by
  cases ow with
  | none => simp [awardBonus, winningAuthor]
  | some aid =>
    cases hfa : l.shuffledAnswers.find? (fun a => a.id == aid) with
    | none => simp [awardBonus, winningAuthor, hfa]
    | some a =>
      cases hfp : l.players.find? (fun p => p.id == a.playerId) with
      | none => simp [awardBonus, winningAuthor, hfa, hfp]
      | some p =>
        simp only [awardBonus, winningAuthor, hfa, hfp, Option.some_bind,
          Option.bind_eq_bind, Option.map_some']
        by_cases hpid : a.playerId = pid
        · subst hpid
          simp only [if_pos rfl]
          exact scoreOf_bumpScore_self l.players a.playerId 1
            (by rw [hfp]; rfl)
        · rw [if_neg (by simpa using hpid)]
          simpa using scoreOf_bumpScore_other l.players a.playerId 1 pid
            fun h => hpid h.symm

theorem winningAuthor_awardBonus (l : Lobby) (ow fw : Option String) :
    winningAuthor (awardBonus l ow) fw = winningAuthor l fw := by
  cases ow with
  | none => rfl
  | some aid =>
    cases hfa : l.shuffledAnswers.find? (fun a => a.id == aid) with
    | none => simp [awardBonus, hfa]
    | some a =>
      cases hfp : l.players.find? (fun p => p.id == a.playerId) with
      | none => simp [awardBonus, hfa, hfp]
      | some p =>
        simp only [awardBonus, hfa, hfp]
        cases fw with
        | none => rfl
        | some fid =>
          simp only [winningAuthor, Option.some_bind, Option.bind_eq_bind]
          cases hfb : l.shuffledAnswers.find? (fun b => b.id == fid) with
          | none => simp [hfb]
          | some b =>
            simp only [hfb, Option.some_bind, Option.bind_eq_bind]
            have hiso := bumpScore_find_isSome l.players a.playerId 1 b.playerId
            have hmapeq : ∀ o1 o2 : Option Player, o1.isSome = o2.isSome →
                o1.map (fun _ => b.playerId) = o2.map (fun _ => b.playerId) := by
              intro o1 o2 h12
              cases o1 <;> cases o2 <;> simp_all
            exact hmapeq _ _ hiso

/-- C6: `tallyVotes` enters the results phase; for each category
independently the winner of a non-empty vote map is the first tally entry
(in insertion order of first votes) whose count equals the maximum count —
so the strictly greatest count wins and ties go to the first id to reach the
running maximum — an empty vote map yields no winner; and each player's
score grows by one per category whose winning answer they authored (zero
categories means no change). -/
theorem tallyVotes_spec (w : World) :
    (tallyVotes w).lobby.phase = Phase.results
    ∧ pickWinner (countVotes ([] : AMap)) = (none, 0)
    ∧ (∀ votes : AMap, votes ≠ [] →
        ∃ wid, pickWinner (countVotes votes)
            = (some wid, maxCount (countVotes votes))
          ∧ (countVotes votes).find? (fun e => e.2 == maxCount (countVotes votes))
              = some (wid, maxCount (countVotes votes)))
    ∧ (∀ pid, scoreOf (tallyVotes w).lobby.players pid
        = scoreOf w.lobby.players pid
          + (if winningAuthor w.lobby
                (pickWinner (countVotes w.lobby.votesBest)).1 = some pid
              then 1 else 0)
          + (if winningAuthor w.lobby
                (pickWinner (countVotes w.lobby.votesFunniest)).1 = some pid
              then 1 else 0)) := by
  refine ⟨rfl, rfl, ?_, ?_⟩
  · intro votes hne
    have hpos : ∀ e ∈ countVotes votes, 1 ≤ e.2 :=
      countVotes_aux_pos votes [] (by simp)

    have hnil : countVotes votes ≠ [] := by
      cases votes with
      | nil => exact absurd rfl hne
      | cons v rest =>
          exact countVotes_aux_ne_nil rest (bumpCount [] v.2) (bumpCount_ne_nil [] v.2)
    have hmax : 0 < maxCount (countVotes votes) := by
      cases hcv : countVotes votes with
      | nil => exact absurd hcv hnil
      | cons e rest =>
          have h1 : 1 ≤ e.2 := hpos e (by rw [hcv]; simp)
          have h2 : e.2 ≤ maxCount (e :: rest) := le_maxCount (e :: rest) e (by simp)
          omega
    exact pickGo_char (countVotes votes) (none, 0) hmax
  · intro pid
    show scoreOf (awardBonus (awardBonus w.lobby
        (pickWinner (countVotes w.lobby.votesBest)).1)
        (pickWinner (countVotes w.lobby.votesFunniest)).1).players pid = _
    rw [scoreOf_awardBonus, scoreOf_awardBonus, winningAuthor_awardBonus]

/-- Witness for `tallyVotes_spec` at the worked example `fwVoting`: best
votes `{v1 ↦ a1, v2 ↦ a1, v3 ↦ a2}` make a1 the winner (count 2 beats 1),
its author v2 gains exactly one point, and the empty funniest category
awards nothing to anyone. -/
theorem tallyVotes_spec_witness :
    pickWinner (countVotes fwVoting.lobby.votesBest) = (some "a1", 2)
    ∧ scoreOf (tallyVotes fwVoting).lobby.players "v2"
        = scoreOf fwVoting.lobby.players "v2" + 1
    ∧ scoreOf (tallyVotes fwVoting).lobby.players "v3"
        = scoreOf fwVoting.lobby.players "v3" := by
  obtain ⟨-, -, hwin, hscore⟩ := tallyVotes_spec fwVoting
  refine ⟨?_, ?_, ?_⟩
  · obtain ⟨wid, hpw, hfind⟩ := hwin fwVoting.lobby.votesBest (by decide)
    have heval : (countVotes fwVoting.lobby.votesBest).find?
        (fun e => e.2 == maxCount (countVotes fwVoting.lobby.votesBest))
        = some ("a1", 2) := rfl
    rw [heval] at hfind
    have hw : wid = "a1" := by
      have := (Option.some_inj.mp hfind.symm)
      exact (congrArg Prod.fst this)
    have hm : maxCount (countVotes fwVoting.lobby.votesBest) = 2 := rfl
    rw [hpw, hw, hm]
  · rw [hscore "v2"]
    rfl
  · rw [hscore "v3"]
    rfl

theorem recordVotes_players (l : Lobby) (s c a : String) :
    (recordVotes l s c a).players = l.players := by
  simp only [recordVotes]
  split <;> split <;> rfl

theorem recordVotes_phase (l : Lobby) (s c a : String) :
    (recordVotes l s c a).phase = l.phase := by
  simp only [recordVotes]
  split <;> split <;> rfl

theorem recordVotes_timer (l : Lobby) (s c a : String) :
    (recordVotes l s c a).timer = l.timer := by
  simp only [recordVotes]
  split <;> split <;> rfl

theorem tallyVotes_phase (w : World) :
    (tallyVotes w).lobby.phase = Phase.results := rfl

/-- C10: in the voting phase a vote message tallies early (entering the
results phase before the timer) exactly when, after the vote is recorded,
every entry of the player roster — disconnected players and the current
guesser included — has a recorded vote in both categories; otherwise the
lobby stays in the voting phase with its timer untouched, so a roster entry
that never votes (for example a disconnected player) leaves timer expiry as
the only way out of the voting phase. -/
theorem vote_gating (w : World) (s c a : String)
    (hp : w.lobby.phase = Phase.voting) :
    ((handleVote w s c a).lobby.phase = Phase.results
      ∨ (handleVote w s c a).lobby.phase = Phase.voting)
    ∧ ((handleVote w s c a).lobby.phase = Phase.results
        ↔ ∀ p ∈ w.lobby.players,
            ahas (recordVotes w.lobby s c a).votesBest p.id = true
            ∧ ahas (recordVotes w.lobby s c a).votesFunniest p.id = true)
    ∧ ((handleVote w s c a).lobby.phase = Phase.voting →
        (handleVote w s c a).lobby.timer = w.lobby.timer
        ∧ (handleVote w s c a).lobby = recordVotes w.lobby s c a) := by
  unfold handleVote
  rw [if_neg (by simp [hp])]
  by_cases hall : allVoted (recordVotes w.lobby s c a) = true
  · rw [if_pos hall]
    have hv : ∀ p ∈ w.lobby.players,
        ahas (recordVotes w.lobby s c a).votesBest p.id = true
        ∧ ahas (recordVotes w.lobby s c a).votesFunniest p.id = true := by
      intro p hpmem
      have := List.all_eq_true.mp hall p
        (by rw [recordVotes_players]; exact hpmem)
      simpa using this
    refine ⟨Or.inl (tallyVotes_phase _), ⟨fun _ => hv, fun _ => tallyVotes_phase _⟩, ?_⟩
    intro hvot
    rw [tallyVotes_phase] at hvot
    exact absurd hvot (by decide)
  · rw [if_neg hall]
    have hph : ({ w with lobby := recordVotes w.lobby s c a }).lobby.phase
        = Phase.voting := by
      show (recordVotes w.lobby s c a).phase = Phase.voting
      rw [recordVotes_phase, hp]
    refine ⟨Or.inr hph, ?_, ?_⟩
    · constructor
      · intro hres
        rw [hph] at hres
        exact absurd hres (by decide)
      · intro hv
        exfalso
        apply hall
        apply List.all_eq_true.mpr
        intro p hpmem
        rw [recordVotes_players] at hpmem
        simpa using hv p hpmem
    · intro _
      exact ⟨recordVotes_timer w.lobby s c a, rfl⟩

/-- Witness for `vote_gating` at `fwVoteGate`: player q2 is disconnected and
has no recorded vote, so a further vote from q3 leaves the lobby in the
voting phase with its timer still pending. -/
theorem vote_gating_witness :
    fwVoteGate.lobby.phase = Phase.voting
    ∧ (fwVoteGate.lobby.players.filter fun p => !p.connected).length = 1
    ∧ (handleVote fwVoteGate "q3" "best" "a1").lobby.phase = Phase.voting
    ∧ (handleVote fwVoteGate "q3" "best" "a1").lobby.timer
        = fwVoteGate.lobby.timer := by
  obtain ⟨hor, hiff, himp⟩ := vote_gating fwVoteGate "q3" "best" "a1" rfl
  have hnres : ¬ (handleVote fwVoteGate "q3" "best" "a1").lobby.phase
      = Phase.results := by
    intro hres
    have hq2 := hiff.mp hres
      { id := "q2", name := "Ben", score := 0, connected := false } (by decide)
    exact absurd hq2.2 (by decide)
  have hv := hor.resolve_left hnres
  exact ⟨rfl, rfl, hv, (himp hv).1⟩

theorem tinv_keep {w w' : World} (h : TimerInv w)
    (ht : w'.lobby.timer = w.lobby.timer) (hv : w'.live = w.live) :
    TimerInv w' := by
  unfold TimerInv at h ⊢
  rw [ht, hv]
  exact h

theorem tinv_clearTimer (w : World) (h : TimerInv w) : TimerInv (clearTimer w) := by
  cases ht : w.lobby.timer with
  | none =>
    have hc : clearTimer w = w := by unfold clearTimer; rw [ht]
    rw [hc]; exact h
  | some t =>
    have hl : w.live = [t.tid] := by simpa [TimerInv, ht] using h
    have hc : clearTimer w = { w with
        lobby := { w.lobby with timer := none }
        live := w.live.erase t.tid } := by
      unfold clearTimer; rw [ht]
    rw [hc]
    show w.live.erase t.tid = []
    rw [hl]
    simp

theorem clearTimer_live_nil (w : World) (h : TimerInv w) :
    (clearTimer w).live = [] := by
  have hc := tinv_clearTimer w h
  have ht : (clearTimer w).lobby.timer = none := by rw [clearTimer_lobby]
  simpa [TimerInv, ht] using hc

theorem tinv_startTimer (w : World) (o : Phase) (s : Nat) (h : TimerInv w) :
    TimerInv (startTimer w o s) := by
  show (clearTimer w).live ++ [(clearTimer w).nextTid] = [(clearTimer w).nextTid]
  rw [clearTimer_live_nil w h]
  rfl

theorem tinv_startQuestionPhase (w : World) (h : TimerInv w) :
    ∀ w', startQuestionPhase w = some w' → TimerInv w' := by
  intro w' hq
  unfold startQuestionPhase at hq
  split at hq
  · simp at hq
  · rw [Option.some_inj] at hq
    rw [← hq]
    exact tinv_startTimer _ _ _ (tinv_keep h rfl rfl)

theorem tinv_startAnswerPhase (w : World) (h : TimerInv w) :
    ∀ w', startAnswerPhase w = some w' → TimerInv w' := by
  intro w' hq
  unfold startAnswerPhase at hq
  split at hq
  · simp at hq
  · rw [Option.some_inj] at hq
    rw [← hq]
    exact tinv_startTimer _ _ _ (tinv_keep h rfl rfl)

theorem tinv_startRevealPhase (w : World) (h : TimerInv w) :
    ∀ w', startRevealPhase w = some w' → TimerInv w' := by
  intro w' hq
  unfold startRevealPhase at hq
  split at hq
  · simp at hq
  · rw [Option.some_inj] at hq
    rw [← hq]
    exact tinv_keep h rfl rfl

theorem tinv_startGuessingPhase (w : World) (h : TimerInv w) :
    ∀ w', startGuessingPhase w = some w' → TimerInv w' := by
  intro w' hq
  unfold startGuessingPhase at hq
  split at hq
  · simp at hq
  · rw [Option.some_inj] at hq
    rw [← hq]
    exact tinv_startTimer _ _ _ (tinv_keep h rfl rfl)

theorem tinv_startVotingPhase (w : World) (h : TimerInv w) :
    ∀ w', startVotingPhase w = some w' → TimerInv w' := by
  intro w' hq
  unfold startVotingPhase at hq
  split at hq
  · simp at hq
  · rw [Option.some_inj] at hq
    rw [← hq]
    exact tinv_startTimer _ _ _ (tinv_keep h rfl rfl)

theorem tinv_scoreGuesses (w : World) (h : TimerInv w) :
    ∀ w', scoreGuesses w = some w' → TimerInv w' := by
  intro w' hs
  unfold scoreGuesses at hs
  cases hg : getGuesser w.lobby with
  | none => rw [hg] at hs; simp at hs
  | some g =>
    rw [hg] at hs
    simp only [Option.bind_eq_bind, Option.some_bind] at hs
    cases hsc : scoreLoop w.lobby.players w.lobby.guesses w.lobby.shuffledAnswers with
    | none => rw [hsc] at hs; simp at hs
    | some scored =>
      rw [hsc] at hs
      simp only [Option.bind_eq_bind, Option.some_bind] at hs
      exact tinv_startVotingPhase _ (by exact tinv_keep h rfl rfl) w' hs

theorem awardBonus_timer (l : Lobby) (ow : Option String) :
    (awardBonus l ow).timer = l.timer := by
  unfold awardBonus
  split
  · rfl
  · split
    · rfl
    · split
      · rfl
      · rfl

theorem tinv_tallyVotes (w : World) (h : TimerInv w) : TimerInv (tallyVotes w) := by
  refine tinv_keep h ?_ rfl
  show (awardBonus (awardBonus w.lobby _) _).timer = w.lobby.timer
  rw [awardBonus_timer, awardBonus_timer]

theorem tinv_startGame (w : World) (h : TimerInv w) :
    ∀ w', startGame w = some w' → TimerInv w' := by
  intro w' hs
  unfold startGame at hs
  exact tinv_startQuestionPhase _ (by exact tinv_keep h rfl rfl) w' hs

theorem tinv_nextTurn (w : World) (h : TimerInv w) :
    ∀ w', nextTurn w = some w' → TimerInv w' := by
  intro w' hs
  unfold nextTurn at hs
  split at hs
  · rw [Option.some_inj] at hs
    rw [← hs]
    exact tinv_keep h rfl rfl
  · exact tinv_startQuestionPhase _ (by exact tinv_keep h rfl rfl) w' hs

theorem questionTimeout_timer (w : World) :
    (questionTimeout w).lobby.timer = w.lobby.timer := by
  unfold questionTimeout
  split <;> rfl

theorem questionTimeout_live (w : World) : (questionTimeout w).live = w.live := by
  unfold questionTimeout
  split <;> rfl

theorem tinv_fireTimer (w : World) (h : TimerInv w) :
    ∀ w', fireTimer w = some w' → TimerInv w' := by
  intro w' hf
  unfold fireTimer at hf
  cases ht : w.lobby.timer with
  | none =>
    rw [ht] at hf
    dsimp only at hf
    rw [Option.some_inj] at hf
    rw [← hf]
    exact h
  | some t =>
    rw [ht] at hf
    dsimp only at hf
    have hcons : TimerInv (consumeTimer w t) := by
      show w.live.erase t.tid = []
      have hl : w.live = [t.tid] := by simpa [TimerInv, ht] using h
      rw [hl]
      simp
    split at hf
    · exact tinv_startAnswerPhase _
        (by exact tinv_keep hcons (questionTimeout_timer _) (questionTimeout_live _))
        w' hf
    · exact tinv_startRevealPhase _ (by exact tinv_keep hcons rfl rfl) w' hf
    · exact tinv_scoreGuesses _ hcons w' hf
    · rw [Option.some_inj] at hf
      rw [← hf]
      exact tinv_tallyVotes _ hcons
    all_goals
      rw [Option.some_inj] at hf
      rw [← hf]
      exact hcons

theorem tinv_handleJoinLobby (w : World) (h : TimerInv w) (name : String) :
    TimerInv (handleJoinLobby w name).1 := by
  unfold handleJoinLobby
  split
  · exact h
  · split
    · exact h
    · exact tinv_keep h rfl rfl

theorem tinv_handleStartGame (w : World) (h : TimerInv w) (s : String) :
    ∀ r, handleStartGame w s = some r → TimerInv r.1 := by
  intro r hr
  unfold handleStartGame at hr
  split at hr
  · rw [Option.some_inj] at hr; rw [← hr]; exact h
  · split at hr
    · rw [Option.some_inj] at hr; rw [← hr]; exact h
    · cases hs : startGame w with
      | none => rw [hs] at hr; simp at hr
      | some v =>
        rw [hs] at hr
        rw [Option.map_some'] at hr
        rw [Option.some_inj] at hr
        rw [← hr]
        exact tinv_startGame w h v hs

theorem tinv_handleSubmitQuestion (w : World) (h : TimerInv w) (s q : String) :
    ∀ r, handleSubmitQuestion w s q = some r → TimerInv r.1 := by
  intro r hr
  unfold handleSubmitQuestion at hr
  dsimp only at hr
  split at hr
  · rw [Option.some_inj] at hr; rw [← hr]; exact h
  · split at hr
    · simp at hr
    · split at hr
      · rw [Option.some_inj] at hr; rw [← hr]; exact h
      · cases hs : startAnswerPhase (clearTimer { w with lobby :=
            { w.lobby with currentQuestion := q.take 200 } }) with
        | none => rw [hs] at hr; simp at hr
        | some v =>
          rw [hs] at hr
          rw [Option.map_some'] at hr
          rw [Option.some_inj] at hr
          rw [← hr]
          exact tinv_startAnswerPhase _
            (by exact tinv_clearTimer _ (tinv_keep h rfl rfl)) v hs

theorem tinv_handleSubmitAnswer (w : World) (h : TimerInv w) (s a : String) :
    ∀ r, handleSubmitAnswer w s a = some r → TimerInv r.1 := by
  intro r hr
  unfold handleSubmitAnswer at hr
  dsimp only at hr
  split at hr
  · rw [Option.some_inj] at hr; rw [← hr]; exact h
  · split at hr
    · simp at hr
    · split at hr
      · rw [Option.some_inj] at hr; rw [← hr]; exact h
      · split at hr
        · cases hs : startRevealPhase (clearTimer { w with lobby :=
              { w.lobby with answers := aset w.lobby.answers s (a.take 300) } }) with
          | none => rw [hs] at hr; simp at hr
          | some v =>
            rw [hs] at hr
            rw [Option.map_some'] at hr
            rw [Option.some_inj] at hr
            rw [← hr]
            exact tinv_startRevealPhase _
              (by exact tinv_clearTimer _ (tinv_keep h rfl rfl)) v hs
        · rw [Option.some_inj] at hr; rw [← hr]
          exact tinv_keep h rfl rfl

theorem tinv_handleNextReveal (w : World) (h : TimerInv w) (s : String) :
    ∀ r, handleNextReveal w s = some r → TimerInv r.1 := by
  intro r hr
  unfold handleNextReveal at hr
  dsimp only at hr
  split at hr
  · rw [Option.some_inj] at hr; rw [← hr]; exact h
  · split at hr
    · simp at hr
    · split at hr
      · rw [Option.some_inj] at hr; rw [← hr]; exact h
      · split at hr
        · cases hs : startGuessingPhase { w with lobby :=
              { w.lobby with revealIndex := w.lobby.revealIndex + 1 } } with
          | none => rw [hs] at hr; simp at hr
          | some v =>
            rw [hs] at hr
            rw [Option.map_some'] at hr
            rw [Option.some_inj] at hr
            rw [← hr]
            exact tinv_startGuessingPhase _ (by exact tinv_keep h rfl rfl) v hs
        · rw [Option.some_inj] at hr; rw [← hr]
          exact tinv_keep h rfl rfl

theorem tinv_handleSubmitGuesses (w : World) (h : TimerInv w) (s : String)
    (gs : AMap) : ∀ r, handleSubmitGuesses w s gs = some r → TimerInv r.1 := by
  intro r hr
  unfold handleSubmitGuesses at hr
  dsimp only at hr
  split at hr
  · rw [Option.some_inj] at hr; rw [← hr]; exact h
  · split at hr
    · simp at hr
    · split at hr
      · rw [Option.some_inj] at hr; rw [← hr]; exact h
      · cases hs : scoreGuesses (clearTimer { w with lobby :=
            { w.lobby with guesses := gs } }) with
        | none => rw [hs] at hr; simp at hr
        | some v =>
          rw [hs] at hr
          rw [Option.map_some'] at hr
          rw [Option.some_inj] at hr
          rw [← hr]
          exact tinv_scoreGuesses _ (by exact tinv_clearTimer _ (tinv_keep h rfl rfl)) v hs

theorem tinv_handleVote (w : World) (h : TimerInv w) (s c a : String) :
    TimerInv (handleVote w s c a) := by
  unfold handleVote
  split
  · exact h
  · split
    · exact tinv_tallyVotes _ (by
        exact tinv_clearTimer _ (tinv_keep h (recordVotes_timer _ _ _ _) rfl))
    · exact tinv_keep h (recordVotes_timer _ _ _ _) rfl


theorem tinv_handleNextTurn (w : World) (h : TimerInv w) (s : String) :
    ∀ r, handleNextTurn w s = some r → TimerInv r.1 := by
  intro r hr
  unfold handleNextTurn at hr
  split at hr
  · rw [Option.some_inj] at hr; rw [← hr]; exact h
  · split at hr
    · rw [Option.some_inj] at hr; rw [← hr]; exact h
    · cases hs : nextTurn w with
      | none => rw [hs] at hr; simp at hr
      | some v =>
        rw [hs] at hr
        rw [Option.map_some'] at hr
        rw [Option.some_inj] at hr
        rw [← hr]
        exact tinv_nextTurn w h v hs

theorem tinv_handlePlayAgain (w : World) (h : TimerInv w) (s : String) :
    TimerInv (handlePlayAgain w s) := by
  unfold handlePlayAgain
  split
  · exact h
  · exact tinv_keep h rfl rfl

theorem tinv_handleDisconnect (w : World) (h : TimerInv w) (pid : String) :
    TimerInv (handleDisconnect w pid) := by
  unfold handleDisconnect
  dsimp only
  split
  · exact tinv_clearTimer _ (tinv_keep h rfl rfl)
  · exact tinv_keep h rfl rfl

/-- C9: the at-most-one-pending-timer invariant (`TimerInv`: the live
timer handles of a lobby are exactly the one in its `timer` field, so at
most one is ever outstanding) holds of a fresh lobby and is preserved by
every operation of the state machine — every client message, a transport
disconnect and a timer firing — because `startTimer` always cancels the
previous handle before scheduling a replacement. -/
theorem timer_invariant_preserved (w : World) (op : Op) (w' : World)
    (hw : TimerInv w) (h : applyOp w op = some w') : TimerInv w' := by
  cases op with
  | disconnect pid =>
    rw [applyOp, Option.some_inj] at h
    rw [← h]
    exact tinv_handleDisconnect w hw pid
  | timerFires =>
    exact tinv_fireTimer w hw w' h
  | msg sender m =>
    cases m with
    | joinLobby name =>
      rw [applyOp, handleMessage, Option.map_some', Option.some_inj] at h
      rw [← h]
      exact tinv_handleJoinLobby w hw name
    | startGameMsg =>
      rw [applyOp, handleMessage] at h
      cases hr : handleStartGame w sender with
      | none => rw [hr] at h; simp at h
      | some r =>
        rw [hr, Option.map_some', Option.some_inj] at h
        rw [← h]
        exact tinv_handleStartGame w hw sender r hr
    | submitQuestion q =>
      rw [applyOp, handleMessage] at h
      cases hr : handleSubmitQuestion w sender q with
      | none => rw [hr] at h; simp at h
      | some r =>
        rw [hr, Option.map_some', Option.some_inj] at h
        rw [← h]
        exact tinv_handleSubmitQuestion w hw sender q r hr
    | submitAnswer a =>
      rw [applyOp, handleMessage] at h
      cases hr : handleSubmitAnswer w sender a with
      | none => rw [hr] at h; simp at h
      | some r =>
        rw [hr, Option.map_some', Option.some_inj] at h
        rw [← h]
        exact tinv_handleSubmitAnswer w hw sender a r hr
    | nextReveal =>
      rw [applyOp, handleMessage] at h
      cases hr : handleNextReveal w sender with
      | none => rw [hr] at h; simp at h
      | some r =>
        rw [hr, Option.map_some', Option.some_inj] at h
        rw [← h]
        exact tinv_handleNextReveal w hw sender r hr
    | submitGuesses gs =>
      rw [applyOp, handleMessage] at h
      cases hr : handleSubmitGuesses w sender gs with
      | none => rw [hr] at h; simp at h
      | some r =>
        rw [hr, Option.map_some', Option.some_inj] at h
        rw [← h]
        exact tinv_handleSubmitGuesses w hw sender gs r hr
    | vote c aid =>
      rw [applyOp, handleMessage, Option.map_some', Option.some_inj] at h
      rw [← h]
      exact tinv_handleVote w hw sender c aid
    | nextTurnMsg =>
      rw [applyOp, handleMessage] at h
      cases hr : handleNextTurn w sender with
      | none => rw [hr] at h; simp at h
      | some r =>
        rw [hr, Option.map_some', Option.some_inj] at h
        rw [← h]
        exact tinv_handleNextTurn w hw sender r hr
    | playAgain =>
      rw [applyOp, handleMessage, Option.map_some', Option.some_inj] at h
      rw [← h]
      exact tinv_handlePlayAgain w hw sender

/-- Witness for `timer_invariant_preserved`: the concrete voting-phase lobby
`fwVoting` satisfies the invariant, a vote message applies successfully, and
the invariant still holds afterwards. -/
theorem timer_invariant_preserved_witness :
    TimerInv ((applyOp fwVoting (Op.msg "v2" (ClientMsg.vote "best" "a2"))).get
      (by rfl)) :=
  timer_invariant_preserved fwVoting (Op.msg "v2" (ClientMsg.vote "best" "a2")) _
    (show TimerInv fwVoting from rfl)
    (Option.some_get (by rfl)).symm

/-- C7 (code bug): the handshake's magic GUID is mistyped.  The accept value
is base64(SHA-1(key ++ GUID)) as the code computes it, but with the source's
GUID string the protocol's canonical key "dGhlIHNhbXBsZSBub25jZQ==" hashes
to "BJmPxQloJA0r2/KJCQjOWR7NsIU=", not the required
"s3pPLMBiTxaQ9kYGzzhZRbK+xOo=" — that value is produced exactly by the true
WebSocket GUID 258EAFA5-E914-47DA-95CA-C5AB0DC85B11, so the embedded SHA-1
and base64 are faithful and the code's GUID is the slip. -/
theorem handshake_guid_mismatch :
    acceptKey "dGhlIHNhbXBsZSBub25jZQ==" = "BJmPxQloJA0r2/KJCQjOWR7NsIU="
    ∧ acceptKey "dGhlIHNhbXBsZSBub25jZQ==" ≠ "s3pPLMBiTxaQ9kYGzzhZRbK+xOo="
    ∧ base64Encode (sha1 (strBytes ("dGhlIHNhbXBsZSBub25jZQ=="
        ++ "258EAFA5-E914-47DA-95CA-C5AB0DC85B11")))
      = "s3pPLMBiTxaQ9kYGzzhZRbK+xOo="
    ∧ acceptResponse "dGhlIHNhbXBsZSBub25jZQ=="
      = "HTTP/1.1 101 Switching Protocols\r\nUpgrade: websocket\r\n"
        ++ "Connection: Upgrade\r\n"
        ++ "Sec-WebSocket-Accept: BJmPxQloJA0r2/KJCQjOWR7NsIU=\r\n\r\n" :=
  ⟨by decide, by decide, by decide, by decide⟩

/-- C8: encoding any byte payload as a single unfragmented server-to-client
text frame and decoding it with the inbound frame parser reproduces the
payload exactly (opcode 1, empty remainder), across all three length tiers:
7-bit direct below 126, marker 126 with 16-bit length below 65536, marker
127 with 64-bit length above.  The length bound reflects `Number(...)` on
the decoded 64-bit length, which is exact below 2^53. -/
theorem frame_roundtrip (payload : List Nat) (h : payload.length < 2 ^ 53) :
    parseFrame (encodeTextFrame payload) = some (1, payload, []) := by
  by_cases h1 : payload.length < 126
  · unfold encodeTextFrame
    rw [if_pos h1]
    simp only [parseFrame]
    have hmod : payload.length % 128 = payload.length :=
      Nat.mod_eq_of_lt (by omega)
    rw [hmod, if_neg (by omega), if_neg (by omega)]
    simp only [parsePayload]
    have hdiv : payload.length / 128 = 0 := Nat.div_eq_of_lt (by omega)
    rw [hdiv]
    simp
  · by_cases h2 : payload.length < 65536
    · unfold encodeTextFrame
      rw [if_neg h1, if_pos h2]
      simp only [parseFrame]
      rw [if_pos (by norm_num)]
      have hsplit : payload.length / 256 * 256 + payload.length % 256
          = payload.length := by omega
      rw [hsplit]
      simp only [parsePayload]
      simp
    · unfold encodeTextFrame
      rw [if_neg h1, if_neg h2]
      simp only [parseFrame, be64, List.cons_append, List.nil_append]
      rw [if_neg (by norm_num), if_pos (by norm_num)]
      have hsplit :
          ((((((payload.length / 2 ^ 56 % 256 * 256
            + payload.length / 2 ^ 48 % 256) * 256
            + payload.length / 2 ^ 40 % 256) * 256
            + payload.length / 2 ^ 32 % 256) * 256
            + payload.length / 2 ^ 24 % 256) * 256
            + payload.length / 2 ^ 16 % 256) * 256
            + payload.length / 2 ^ 8 % 256) * 256 + payload.length % 256
          = payload.length := by omega
      rw [hsplit]
      simp only [parsePayload]
      simp

/-- Witness for `frame_roundtrip` at payloads of length 10, 200 and 70000
bytes, one per length-field tier. -/
theorem frame_roundtrip_witness :
    parseFrame (encodeTextFrame (List.replicate 10 65))
      = some (1, List.replicate 10 65, [])
    ∧ parseFrame (encodeTextFrame (List.replicate 200 66))
      = some (1, List.replicate 200 66, [])
    ∧ parseFrame (encodeTextFrame (List.replicate 70000 67))
      = some (1, List.replicate 70000 67, []) :=
  ⟨frame_roundtrip _ (by rw [List.length_replicate]; norm_num),
   frame_roundtrip _ (by rw [List.length_replicate]; norm_num),
   frame_roundtrip _ (by rw [List.length_replicate]; norm_num)⟩

end WhoDat
